import Mathlib

/-!
Verification model of the hyni schema-driven context engine
(`src/general_context.cpp`, `src/general_context.h`, `src/chat_api.cpp`).

JSON documents (nlohmann::json) are shallowly embedded as the inductive
type `Json`.  Numbers distinguish integer storage from floating storage,
as nlohmann does; floating values are modelled exactly as rationals.
Objects are association lists in insertion order; no claim below depends
on the key order of an object.  `std::unordered_map` members
(`m_parameters`, `m_headers`) are modelled as association lists whose
order is one fixed linearization of the unspecified C++ iteration order.
C++ exceptions are modelled with `Except`: `schema_exception` as
`HyniError.schemaError`, `validation_exception` as
`HyniError.validationError`, nlohmann type errors as
`HyniError.jsonError`, `std::runtime_error` as `HyniError.runtimeError`.
-/

namespace Hyni

inductive Json where
  | null : Json
  | bool (b : Bool) : Json
  | int (n : Int) : Json
  | num (q : ℚ) : Json
  | str (s : String) : Json
  | arr (elems : List Json) : Json
  | obj (fields : List (String × Json)) : Json
deriving Repr

mutual

def Json.beq : Json → Json → Bool
  | .null, .null => true
  | .bool a, .bool b => a == b
  | .int a, .int b => a == b
  | .num a, .num b => a == b
  | .str a, .str b => a == b
  | .arr a, .arr b => Json.beqList a b
  | .obj a, .obj b => Json.beqFields a b
  | _, _ => false

def Json.beqList : List Json → List Json → Bool
  | [], [] => true
  | x :: xs, y :: ys => Json.beq x y && Json.beqList xs ys
  | _, _ => false

def Json.beqFields : List (String × Json) → List (String × Json) → Bool
  | [], [] => true
  | (k, v) :: xs, (l, w) :: ys => k == l && Json.beq v w && Json.beqFields xs ys
  | _, _ => false

end

mutual

theorem Json.beq_iff : ∀ a b : Json, Json.beq a b = true ↔ a = b
  | .null, b => by cases b <;> simp [Json.beq]
  | .bool a, b => by cases b <;> simp [Json.beq]
  | .int a, b => by cases b <;> simp [Json.beq]
  | .num a, b => by cases b <;> simp [Json.beq]
  | .str a, b => by cases b <;> simp [Json.beq]
  | .arr a, b => by
      cases b <;> simp [Json.beq]
      exact Json.beqList_iff a _
  | .obj a, b => by
      cases b <;> simp [Json.beq]
      exact Json.beqFields_iff a _

theorem Json.beqList_iff : ∀ a b : List Json, Json.beqList a b = true ↔ a = b
  | [], b => by cases b <;> simp [Json.beqList]
  | x :: xs, b => by
      cases b with
      | nil => simp [Json.beqList]
      | cons y ys =>
          simp [Json.beqList, Json.beq_iff x y, Json.beqList_iff xs ys]

theorem Json.beqFields_iff :
    ∀ a b : List (String × Json), Json.beqFields a b = true ↔ a = b
  | [], b => by cases b <;> simp [Json.beqFields]
  | (k, v) :: xs, b => by
      cases b with
      | nil => simp [Json.beqFields]
      | cons y ys =>
          obtain ⟨l, w⟩ := y
          simp [Json.beqFields, Json.beq_iff v w, Json.beqFields_iff xs ys,
            Prod.ext_iff, and_assoc]

end

instance : DecidableEq Json := fun a b =>
  decidable_of_iff (Json.beq a b = true) (Json.beq_iff a b)

/-- First binding of a key in an association list of object fields. -/
def Json.lookupField : List (String × Json) → String → Option Json
  | [], _ => none
  | (k, v) :: rest, key => if k = key then some v else Json.lookupField rest key

/-- nlohmann `contains`: true only on objects holding the key. -/
def Json.contains (j : Json) (key : String) : Bool :=
  match j with
  | .obj fs => (Json.lookupField fs key).isSome
  | _ => false

/-- Read of `j[key]` where the code has already established presence (or where
a read of an absent key yields the inserted `null`).  On non-objects this
returns `null`; every use mirrors a C++ site where that cannot be observed. -/
def Json.get (j : Json) (key : String) : Json :=
  match j with
  | .obj fs => (Json.lookupField fs key).getD .null
  | _ => .null

/-- Replace the first binding of a key, or append the key at the end. -/
def Json.setField : List (String × Json) → String → Json → List (String × Json)
  | [], key, v => [(key, v)]
  | (k, w) :: rest, key, v =>
      if k = key then (k, v) :: rest else (k, w) :: Json.setField rest key v

/-- Mutating `j[key] = v` (non-const nlohmann `operator[]` plus assignment):
works on objects and on `null` (which becomes an object); on any other node
the C++ call throws, modelled by `none`. -/
def Json.setKey (j : Json) (key : String) (v : Json) : Option Json :=
  match j with
  | .obj fs => some (.obj (Json.setField fs key v))
  | .null => some (.obj [(key, v)])
  | _ => none

/-- `setKey` at a site where the C++ code cannot throw (the target is known
to be an object). -/
def Json.setKeyTotal (j : Json) (key : String) (v : Json) : Json :=
  (j.setKey key v).getD j

def Json.isObj : Json → Bool
  | .obj _ => true
  | _ => false

def Json.isArr : Json → Bool
  | .arr _ => true
  | _ => false

def Json.isStr : Json → Bool
  | .str _ => true
  | _ => false

def Json.isBool : Json → Bool
  | .bool _ => true
  | _ => false

/-- nlohmann `is_number_integer`: only integer-stored numbers. -/
def Json.isInt : Json → Bool
  | .int _ => true
  | _ => false

/-- nlohmann `is_number`: integer- or floating-stored numbers. -/
def Json.isNumber : Json → Bool
  | .int _ => true
  | .num _ => true
  | _ => false

/-- Numeric value as used by `get<double>` comparisons; `0` is never read on
non-numbers because every use is guarded by `isNumber`. -/
def Json.toRatD : Json → ℚ
  | .int n => (n : ℚ)
  | .num q => q
  | _ => 0

/-- Range iteration: arrays yield elements, objects yield values, `null`
is empty, a primitive yields itself once (nlohmann iterator semantics). -/
def Json.iter : Json → List Json
  | .arr xs => xs
  | .obj fs => fs.map Prod.snd
  | .null => []
  | x => [x]

/-- `items()` iteration with keys; arrays yield decimal index keys,
a primitive yields the empty key. -/
def Json.itemsList : Json → List (String × Json)
  | .obj fs => fs
  | .arr xs => xs.enum.map (fun p => (toString p.1, p.2))
  | .null => []
  | x => [("", x)]

def Json.arrSize : Json → Nat
  | .arr xs => xs.length
  | _ => 0

/-- Truncation toward zero, as `static_cast<int>` on a double. -/
def ratTrunc (q : ℚ) : Int :=
  if 0 ≤ q then q.floor else q.ceil

mutual

/-- nlohmann `operator==`: structural, except numbers compare by value
across integer/floating storage.  Objects are compared pointwise in stored
order; the only use below (schema `enum` membership) never compares
objects whose field orders differ. -/
def Json.jeq : Json → Json → Bool
  | .null, .null => true
  | .bool a, .bool b => a == b
  | .int a, .int b => a == b
  | .int a, .num b => (a : ℚ) == b
  | .num a, .int b => a == (b : ℚ)
  | .num a, .num b => a == b
  | .str a, .str b => a == b
  | .arr a, .arr b => Json.jeqList a b
  | .obj a, .obj b => Json.jeqFields a b
  | _, _ => false

def Json.jeqList : List Json → List Json → Bool
  | [], [] => true
  | x :: xs, y :: ys => Json.jeq x y && Json.jeqList xs ys
  | _, _ => false

def Json.jeqFields : List (String × Json) → List (String × Json) → Bool
  | [], [] => true
  | (k, v) :: xs, (l, w) :: ys => k == l && Json.jeq v w && Json.jeqFields xs ys
  | _, _ => false

end

mutual

/-- `remove_nulls_recursive`: strips null-valued fields from objects,
recursing into objects and arrays (array elements are never removed). -/
def removeNulls : Json → Json
  | .arr xs => .arr (removeNullsList xs)
  | .obj fs => .obj (removeNullsFields fs)
  | j => j

def removeNullsList : List Json → List Json
  | [] => []
  | x :: xs => removeNulls x :: removeNullsList xs

def removeNullsFields : List (String × Json) → List (String × Json)
  | [] => []
  | (k, v) :: fs =>
      if v = .null then removeNullsFields fs
      else (k, removeNulls v) :: removeNullsFields fs

end

/-- The exception taxonomy of the engine.  `schemaError` is
`schema_exception`, `validationError` is `validation_exception`,
`jsonError` is any `nlohmann::json` exception (type errors during `get`
or `operator[]`), `runtimeError` is `std::runtime_error`;
`streamingNotSupported` and `noUserMessage` are the dedicated
`chat_api` exception classes. -/
inductive HyniError where
  | schemaError (msg : String) : HyniError
  | validationError (msg : String) : HyniError
  | jsonError (msg : String) : HyniError
  | runtimeError (msg : String) : HyniError
  | streamingNotSupported : HyniError
  | noUserMessage : HyniError
deriving Repr, DecidableEq

instance {ε α : Type} [DecidableEq ε] [DecidableEq α] : DecidableEq (Except ε α) := fun x y =>
  match x, y with
  | .ok a, .ok b => if h : a = b then isTrue (by simp [h]) else isFalse (by simp [h])
  | .error a, .error b => if h : a = b then isTrue (by simp [h]) else isFalse (by simp [h])
  | .ok _, .error _ => isFalse (by simp)
  | .error _, .ok _ => isFalse (by simp)

/-- Message text of an exception, as consumed by `catch` blocks that
re-wrap it (`what()`). -/
def HyniError.what : HyniError → String
  | .schemaError m => m
  | .validationError m => m
  | .jsonError m => m
  | .runtimeError m => m
  | .streamingNotSupported => "Streaming not supported"
  | .noUserMessage => "No user message"

/-- `get<std::string>`: succeeds only on strings, otherwise the C++ call
throws a type error. -/
def Json.asString : Json → Except HyniError String
  | .str s => .ok s
  | _ => .error (.jsonError "type must be string")

/-- `get<double>` on a schema bound: succeeds on numbers. -/
def Json.asRat : Json → Except HyniError ℚ
  | .int n => .ok (n : ℚ)
  | .num q => .ok q
  | _ => .error (.jsonError "type must be number")

/-- `get<size_t>`: numbers are cast (truncation toward zero, wrapping as
`static_cast<size_t>`), anything else throws. -/
def Json.asSizeT : Json → Except HyniError Nat
  | .int n => .ok ((n % (2 ^ 64 : Int)).toNat)
  | .num q => .ok ((ratTrunc q % (2 ^ 64 : Int)).toNat)
  | _ => .error (.jsonError "type must be number")

/-- `context_config` (`general_context.h`).  `custom_parameters` is
never read by the engine and is omitted. -/
structure ContextConfig where
  enable_streaming_support : Bool := false
  enable_validation : Bool := true
  enable_caching : Bool := true
  default_max_tokens : Option Int := none
  default_temperature : Option ℚ := none
deriving Repr, DecidableEq

/-- The mutable state of `general_context`. -/
structure Context where
  m_schema : Json
  m_request_template : Json
  m_config : ContextConfig
  m_provider_name : String
  m_endpoint : String
  m_headers : List (String × String)
  m_model_name : String
  m_system_message : Option String
  m_messages : List Json
  m_parameters : List (String × Json)
  m_api_key : String
  m_valid_roles : List String
  m_text_path : List String
  m_error_path : List String
  m_message_structure : Json
  m_text_content_format : Json
  m_image_content_format : Json
deriving Repr, DecidableEq

/-- `parse_json_path`: strings are kept, numbers become their decimal
representation after `static_cast<int>` truncation, other nodes are
skipped. -/
def parse_json_path (p : Json) : List String :=
  p.iter.filterMap fun e =>
    match e with
    | .str s => some s
    | .int n => some (toString n)
    | .num q => some (toString (ratTrunc q))
    | _ => none

/-- Decimal value of an all-digit token (`std::stoi` on such a token). -/
def digitsVal (l : List Char) : Nat :=
  l.foldl (fun acc c => acc * 10 + (c.toNat - 48)) 0

/-- `resolve_path`: walks a pre-parsed path.  A segment made only of the
characters 0-9 (including the empty string) is taken as an array index:
the empty segment makes `stoi` throw, an index beyond `INT_MAX` makes
`stoi` throw, otherwise the node must be an array with enough elements.
Any other segment is an object key that must be present. -/
def resolve_path (j : Json) (path : List String) : Except HyniError Json :=
  match path with
  | [] => .ok j
  | key :: rest =>
      if key.data.all Char.isDigit then
        if key.data = [] then .error (.runtimeError "stoi")
        else
          let idx := digitsVal key.data
          if 2147483647 < idx then .error (.runtimeError "stoi")
          else
            match j with
            | .arr xs =>
                if h : idx < xs.length then resolve_path (xs.get ⟨idx, h⟩) rest
                else .error (.runtimeError ("Invalid array access: index " ++ key))
            | _ => .error (.runtimeError ("Invalid array access: index " ++ key))
      else
        if j.contains key then resolve_path (j.get key) rest
        else .error (.runtimeError ("Invalid object access: key " ++ key))

/-- `extract_text_response`: resolves the cached text path and reads the
node as a string; every failure is re-wrapped as a runtime error. -/
def extract_text_response (ctx : Context) (response : Json) : Except HyniError String :=
  match resolve_path response ctx.m_text_path with
  | .error e => .error (.runtimeError ("Failed to extract text response: " ++ e.what))
  | .ok node =>
      match node with
      | .str s => .ok s
      | _ => .error (.runtimeError ("Failed to extract text response: type must be string"))

/-- `extract_error`: falls back to fixed strings instead of throwing. -/
def extract_error (ctx : Context) (response : Json) : String :=
  if ctx.m_error_path = [] then "Unknown error"
  else
    match resolve_path response ctx.m_error_path with
    | .error _ => "Failed to parse error message"
    | .ok node =>
        match node with
        | .str s => s
        | _ => "Failed to parse error message"

/-- `validate_schema`: required top-level sections in declared order,
then the minimally-required nested fields. -/
def validate_schema (s : Json) : Except HyniError Unit :=
  if ¬ s.contains "provider" then
    .error (.schemaError "Missing required schema field: provider")
  else if ¬ s.contains "api" then
    .error (.schemaError "Missing required schema field: api")
  else if ¬ s.contains "request_template" then
    .error (.schemaError "Missing required schema field: request_template")
  else if ¬ s.contains "message_format" then
    .error (.schemaError "Missing required schema field: message_format")
  else if ¬ s.contains "response_format" then
    .error (.schemaError "Missing required schema field: response_format")
  else if ¬ (s.get "api").contains "endpoint" then
    .error (.schemaError "Missing API endpoint in schema")
  else if ¬ ((s.get "message_format").contains "structure" ∧
             (s.get "message_format").contains "content_types") then
    .error (.schemaError "Invalid message format in schema")
  else if ¬ ((s.get "response_format").contains "success" ∧
             ((s.get "response_format").get "success").contains "text_path") then
    .error (.schemaError "Invalid response format in schema")
  else .ok ()

/-- The `message_roles` cache loop: every element is read with
`get<std::string>`. -/
def rolesFrom : List Json → Except HyniError (List String)
  | [] => .ok []
  | r :: rest => do
      let s ← r.asString
      let tail ← rolesFrom rest
      pure (s :: tail)

/-- Insert-or-assign on an association list (`std::unordered_map`
`operator[]` assignment, in one fixed iteration order). -/
def insertAssign (m : List (String × String)) (key value : String) :
    List (String × String) :=
  match m with
  | [] => [(key, value)]
  | (k, v) :: rest =>
      if k = key then (k, value) :: rest else (k, v) :: insertAssign rest key value

/-- `build_headers` body over the `required` items: each value is read as
a string, the authentication placeholder (when declared) is substituted
with the API key, and the result is stored.  Returns the headers
accumulated so far together with the first error, because
`set_api_key` leaves that partial map in place when a later item
throws. -/
def requiredHeadersLoop (schema : Json) (apiKey : String) :
    List (String × Json) → List (String × String) →
    (Except HyniError Unit) × List (String × String)
  | [], acc => (.ok (), acc)
  | (key, value) :: rest, acc =>
      match value.asString with
      | .error e => (.error e, acc)
      | .ok hv =>
          if schema.contains "authentication" ∧
             (schema.get "authentication").contains "key_placeholder" then
            match ((schema.get "authentication").get "key_placeholder").asString with
            | .error e => (.error e, acc)
            | .ok placeholder =>
                requiredHeadersLoop schema apiKey rest
                  (insertAssign acc key (hv.replace placeholder apiKey))
          else
            requiredHeadersLoop schema apiKey rest (insertAssign acc key hv)

/-- The `optional` headers loop: only non-empty string values are copied. -/
def optionalHeadersLoop :
    List (String × Json) → List (String × String) → List (String × String)
  | [], acc => acc
  | (key, value) :: rest, acc =>
      match value with
      | .str s => if s = "" then optionalHeadersLoop rest acc
                  else optionalHeadersLoop rest (insertAssign acc key s)
      | _ => optionalHeadersLoop rest acc

/-- `build_headers`: clears the header map, processes required then
optional headers.  The pair carries the partial map reached when an
item throws. -/
def buildHeadersSteps (schema : Json) (apiKey : String) :
    (Except HyniError Unit) × List (String × String) :=
  let step1 :=
    if schema.contains "headers" ∧ (schema.get "headers").contains "required" then
      requiredHeadersLoop schema apiKey ((schema.get "headers").get "required").itemsList []
    else (.ok (), [])
  match step1 with
  | (.error e, acc) => (.error e, acc)
  | (.ok _, acc) =>
      if schema.contains "headers" ∧ (schema.get "headers").contains "optional" then
        (.ok (), optionalHeadersLoop ((schema.get "headers").get "optional").itemsList acc)
      else (.ok (), acc)

/-- Construction of a `general_context` from a pre-parsed schema
(the header-file constructor): `validate_schema`,
`cache_schema_elements`, `apply_defaults`, `build_headers`.  A failure
at any stage yields an error and no context at all. -/
def Context.make (schema : Json) (config : ContextConfig) : Except HyniError Context := do
  validate_schema schema
  let providerName ← ((schema.get "provider").get "name").asString
  let endpoint ← ((schema.get "api").get "endpoint").asString
  let roles ←
    if schema.contains "message_roles" then rolesFrom (schema.get "message_roles").iter
    else pure []
  let textPath := parse_json_path (((schema.get "response_format").get "success").get "text_path")
  let errorPath :=
    if (schema.get "response_format").contains "error" ∧
       ((schema.get "response_format").get "error").contains "error_path" then
      parse_json_path (((schema.get "response_format").get "error").get "error_path")
    else []
  let textFmt :=
    if ((schema.get "message_format").get "content_types").contains "text" then
      ((schema.get "message_format").get "content_types").get "text"
    else .null
  let imageFmt :=
    if ((schema.get "message_format").get "content_types").contains "image" then
      ((schema.get "message_format").get "content_types").get "image"
    else .null
  let modelName ←
    if schema.contains "models" ∧ (schema.get "models").contains "default" then
      ((schema.get "models").get "default").asString
    else pure ""
  let headers ←
    match buildHeadersSteps schema "" with
    | (.ok _, hs) => pure hs
    | (.error e, _) => Except.error e
  pure {
    m_schema := schema
    m_request_template := schema.get "request_template"
    m_config := config
    m_provider_name := providerName
    m_endpoint := endpoint
    m_headers := headers
    m_model_name := modelName
    m_system_message := none
    m_messages := []
    m_parameters := []
    m_api_key := ""
    m_valid_roles := roles
    m_text_path := textPath
    m_error_path := errorPath
    m_message_structure := (schema.get "message_format").get "structure"
    m_text_content_format := textFmt
    m_image_content_format := imageFmt }

/-- `supports_streaming`: the `features` section must exist, be an
object, and hold a boolean `streaming` flag; otherwise false. -/
def supports_streaming (ctx : Context) : Bool :=
  if ctx.m_schema.contains "features" then
    match ctx.m_schema.get "features" with
    | .obj fs =>
        match Json.lookupField fs "streaming" with
        | some (.bool b) => b
        | _ => false
    | _ => false
  else false

/-- `supports_system_messages`: `system_message.supported` boolean flag. -/
def supports_system_messages (ctx : Context) : Bool :=
  if ctx.m_schema.contains "system_message" then
    match ctx.m_schema.get "system_message" with
    | .obj fs =>
        match Json.lookupField fs "supported" with
        | some (.bool b) => b
        | _ => false
    | _ => false
  else false

/-- `supports_multimodal`: `multimodal.supported` boolean flag. -/
def supports_multimodal (ctx : Context) : Bool :=
  if ctx.m_schema.contains "multimodal" then
    match ctx.m_schema.get "multimodal" with
    | .obj fs =>
        match Json.lookupField fs "supported" with
        | some (.bool b) => b
        | _ => false
    | _ => false
  else false

/-- `has_api_key`. -/
def has_api_key (ctx : Context) : Bool := ctx.m_api_key ≠ ""

/-- `has_parameter`. -/
def has_parameter (ctx : Context) (key : String) : Bool :=
  (Json.lookupField ctx.m_parameters key).isSome

/-- Lifts the fallible `setKey` into the exception monad
(a failing `operator[]` throws a type error). -/
def ofSet (o : Option Json) : Except HyniError Json :=
  match o with
  | some j => .ok j
  | none => .error (.jsonError "cannot use operator with this type")

/-- `create_text_content` (no media variant of content blocks): copies
the schema text template and assigns the `text` field. -/
def create_text_content (ctx : Context) (text : String) : Except HyniError Json :=
  ofSet (ctx.m_text_content_format.setKey "text" (.str text))

/-- `create_message` for text-only messages (`media_type`/`media_data`
absent, the only form the claims exercise).  A role-specific structure
(`<role>_structure`) is used when declared, substituting the `<ROLE>`
and `<TEXT>` placeholders; otherwise the default structure is used, the
role is always assigned, and the content field is filled as an array of
content blocks or as a plain string. -/
def create_message (ctx : Context) (role content : String) : Except HyniError Json :=
  let structureKey := role ++ "_structure"
  if ctx.m_schema.contains "message_format" ∧
     (ctx.m_schema.get "message_format").contains structureKey then do
    let message := (ctx.m_schema.get "message_format").get structureKey
    let message ←
      if message.contains "role" ∧ message.get "role" = Json.str "<ROLE>" then
        ofSet (message.setKey "role" (.str role))
      else if ¬ message.contains "role" then
        ofSet (message.setKey "role" (.str role))
      else pure message
    let message ←
      if message.contains "content" ∧ message.get "content" = Json.str "<TEXT>" then
        ofSet (message.setKey "content" (.str content))
      else pure message
    pure message
  else do
    let message := ctx.m_message_structure
    let message ← ofSet (message.setKey "role" (.str role))
    if message.contains "content" ∧ (message.get "content").isArr then do
      let tc ← create_text_content ctx content
      ofSet (message.setKey "content" (.arr [tc]))
    else if message.contains "content" then
      ofSet (message.setKey "content" (.str content))
    else pure message

/-- `validate_message`: requires `role` and `content` fields, and a role
inside the valid-role set when that set is non-empty. -/
def validate_message (ctx : Context) (message : Json) : Except HyniError Unit :=
  if ¬ (message.contains "role" ∧ message.contains "content") then
    .error (.validationError "Message must contain role and content fields")
  else do
    let role ← (message.get "role").asString
    if ctx.m_valid_roles ≠ [] ∧ role ∉ ctx.m_valid_roles then
      .error (.validationError ("Invalid message role: " ++ role))
    else pure ()

/-- `add_message`: create, validate when enabled, append.  The pair
carries the post-call state: the message list is extended only after
both steps succeed. -/
def add_message (ctx : Context) (role content : String) :
    (Except HyniError Unit) × Context :=
  match create_message ctx role content with
  | .error e => (.error e, ctx)
  | .ok message =>
      if ctx.m_config.enable_validation then
        match validate_message ctx message with
        | .error e => (.error e, ctx)
        | .ok _ => (.ok (), { ctx with m_messages := ctx.m_messages ++ [message] })
      else (.ok (), { ctx with m_messages := ctx.m_messages ++ [message] })

/-- `add_user_message` (text only). -/
def add_user_message (ctx : Context) (content : String) :
    (Except HyniError Unit) × Context :=
  add_message ctx "user" content

/-- `add_assistant_message`. -/
def add_assistant_message (ctx : Context) (content : String) :
    (Except HyniError Unit) × Context :=
  add_message ctx "assistant" content

/-- The `models.available` membership loop of `set_model`: each element
is read with `get<std::string>` until a match is found. -/
def findAvailableModel : List Json → String → Except HyniError Bool
  | [], _ => .ok false
  | m :: rest, model => do
      let s ← m.asString
      if s = model then pure true else findAvailableModel rest model

/-- `set_model`: rejected (when validation is enabled) if an
available-models list is declared and the name is not in it. -/
def set_model (ctx : Context) (model : String) : (Except HyniError Unit) × Context :=
  if ctx.m_schema.contains "models" ∧ (ctx.m_schema.get "models").contains "available" then
    match findAvailableModel ((ctx.m_schema.get "models").get "available").iter model with
    | .error e => (.error e, ctx)
    | .ok found =>
        if ¬ found ∧ ctx.m_config.enable_validation then
          (.error (.validationError ("Model " ++ model ++ " is not supported by this provider")), ctx)
        else (.ok (), { ctx with m_model_name := model })
  else (.ok (), { ctx with m_model_name := model })

/-- `set_system_message`. -/
def set_system_message (ctx : Context) (systemText : String) :
    (Except HyniError Unit) × Context :=
  if ¬ supports_system_messages ctx ∧ ctx.m_config.enable_validation then
    (.error (.validationError ("Provider " ++ ctx.m_provider_name ++
      " does not support system messages")), ctx)
  else (.ok (), { ctx with m_system_message := some systemText })

/-- `set_api_key`: an empty key is rejected before any mutation; a
non-empty key is stored and the headers are rebuilt.  Should the header
rebuild throw, the key and the partially rebuilt header map remain, as
in the C++ object. -/
def set_api_key (ctx : Context) (apiKey : String) : (Except HyniError Unit) × Context :=
  if apiKey = "" then (.error (.validationError "API key cannot be empty"), ctx)
  else
    match buildHeadersSteps ctx.m_schema apiKey with
    | (.ok _, hs) => (.ok (), { ctx with m_api_key := apiKey, m_headers := hs })
    | (.error e, hs) => (.error e, { ctx with m_api_key := apiKey, m_headers := hs })

/-- One type alternative of a multi-type parameter declaration. -/
def typeMatches (t : String) (v : Json) : Bool :=
  (t = "string" ∧ v.isStr) ∨ (t = "array" ∧ v.isArr) ∨
  (t = "integer" ∧ v.isInt) ∨ (t = "float" ∧ v.isNumber) ∨
  (t = "boolean" ∧ v.isBool) ∨ (t = "object" ∧ v.isObj)

/-- The multi-type loop of `validate_parameter`: reads each declared
type as a string (throwing on a non-string entry reached before a
match) and stops at the first match. -/
def multiTypeLoop : List Json → Json → Except HyniError Bool
  | [], _ => .ok false
  | t :: rest, v => do
      let ts ← t.asString
      if typeMatches ts v then pure true else multiTypeLoop rest v

/-- The per-item type check of array parameters. -/
def checkItemsType (key itemType : String) : List Json → Except HyniError Unit
  | [] => .ok ()
  | item :: rest =>
      if itemType = "string" ∧ ¬ item.isStr then
        .error (.validationError ("Parameter " ++ key ++ " array items must be strings"))
      else checkItemsType key itemType rest

/-- The per-item length check of array parameters (string items only;
lengths are UTF-8 byte counts, as `std::string::length`). -/
def checkItemsLen (key : String) (maxLen : Nat) : List Json → Except HyniError Unit
  | [] => .ok ()
  | item :: rest =>
      match item with
      | .str s =>
          if maxLen < s.utf8ByteSize then
            .error (.validationError ("Parameter " ++ key ++ " array item exceeds maximum length"))
          else checkItemsLen key maxLen rest
      | _ => checkItemsLen key maxLen rest

/-- `validate_parameter`, in source order: null handling, undeclared
keys accepted, the multi-type branch (with `maxItems` and `items`
checks), then for single-type declarations `max_length`, `enum`
membership, the exact type check, and the `min`/`max` numeric range. -/
def validate_parameter (ctx : Context) (key : String) (value : Json) :
    Except HyniError Unit :=
  if value = Json.null then
    if ctx.m_schema.contains "parameters" ∧
       (ctx.m_schema.get "parameters").contains key ∧
       ((ctx.m_schema.get "parameters").get key).contains "default" ∧
       ((ctx.m_schema.get "parameters").get key).get "default" = Json.null then
      .ok ()
    else .error (.validationError ("Parameter " ++ key ++ " cannot be null"))
  else if ¬ (ctx.m_schema.contains "parameters" ∧
             (ctx.m_schema.get "parameters").contains key) then
    .ok ()
  else
    let paramDef := (ctx.m_schema.get "parameters").get key
    if paramDef.contains "type" ∧ (paramDef.get "type").isArr then do
      let matched ← multiTypeLoop (paramDef.get "type").iter value
      if ¬ matched then
        .error (.validationError ("Parameter " ++ key ++ " must be one of the declared types"))
      else do
        if value.isArr ∧ paramDef.contains "maxItems" then do
          let maxItems ← (paramDef.get "maxItems").asSizeT
          if maxItems < value.arrSize then
            Except.error (.validationError ("Parameter " ++ key ++ " array exceeds maximum"))
          else pure ()
        else pure ()
        if value.isArr ∧ paramDef.contains "items" then do
          let itemsDef := paramDef.get "items"
          if itemsDef.contains "type" then do
            let itemType ← (itemsDef.get "type").asString
            checkItemsType key itemType value.iter
          else pure ()
          if itemsDef.contains "maxLength" then do
            let maxLen ← (itemsDef.get "maxLength").asSizeT
            checkItemsLen key maxLen value.iter
          else pure ()
        else pure ()
    else do
      if value.isStr ∧ paramDef.contains "max_length" then do
        let maxLen ← (paramDef.get "max_length").asSizeT
        match value with
        | .str s =>
            if maxLen < s.utf8ByteSize then
              Except.error (.validationError ("Parameter " ++ key ++ " exceeds maximum length"))
            else pure ()
        | _ => pure ()
      else pure ()
      if paramDef.contains "enum" then
        if (paramDef.get "enum").iter.any (fun a => value.jeq a) then pure ()
        else Except.error (.validationError ("Parameter " ++ key ++ " has invalid value"))
      else pure ()
      if paramDef.contains "type" then do
        let expected ← (paramDef.get "type").asString
        if expected = "integer" ∧ ¬ value.isInt then
          Except.error (.validationError ("Parameter " ++ key ++ " must be an integer"))
        else if expected = "float" ∧ ¬ value.isNumber then
          Except.error (.validationError ("Parameter " ++ key ++ " must be a number"))
        else if expected = "string" ∧ ¬ value.isStr then
          Except.error (.validationError ("Parameter " ++ key ++ " must be a string"))
        else if expected = "boolean" ∧ ¬ value.isBool then
          Except.error (.validationError ("Parameter " ++ key ++ " must be a boolean"))
        else if expected = "array" ∧ ¬ value.isArr then
          Except.error (.validationError ("Parameter " ++ key ++ " must be an array"))
        else pure ()
      else pure ()
      if value.isNumber ∧ paramDef.contains "min" then do
        let mn ← (paramDef.get "min").asRat
        if value.toRatD < mn then
          Except.error (.validationError ("Parameter " ++ key ++ " must be at least the minimum"))
        else pure ()
      else pure ()
      if value.isNumber ∧ paramDef.contains "max" then do
        let mx ← (paramDef.get "max").asRat
        if mx < value.toRatD then
          Except.error (.validationError ("Parameter " ++ key ++ " must be at most the maximum"))
        else pure ()
      else pure ()

/-- Insert-or-assign for the parameter map. -/
def insertParam (m : List (String × Json)) (key : String) (value : Json) :
    List (String × Json) :=
  match m with
  | [] => [(key, value)]
  | (k, v) :: rest =>
      if k = key then (k, value) :: rest else (k, v) :: insertParam rest key value

/-- `set_parameter`: validate (when enabled) then store. -/
def set_parameter (ctx : Context) (key : String) (value : Json) :
    (Except HyniError Unit) × Context :=
  if ctx.m_config.enable_validation then
    match validate_parameter ctx key value with
    | .error e => (.error e, ctx)
    | .ok _ => (.ok (), { ctx with m_parameters := insertParam ctx.m_parameters key value })
  else (.ok (), { ctx with m_parameters := insertParam ctx.m_parameters key value })

/-- `set_parameters`: iterates the given map (here: one fixed iteration
order) calling `set_parameter` on each entry; an exception aborts the
loop, leaving the entries already processed stored. -/
def set_parameters (ctx : Context) : List (String × Json) →
    (Except HyniError Unit) × Context
  | [] => (.ok (), ctx)
  | (k, v) :: rest =>
      match set_parameter ctx k v with
      | (.error e, ctx1) => (.error e, ctx1)
      | (.ok _, ctx1) => set_parameters ctx1 rest

/-- `clear_user_messages`. -/
def clear_user_messages (ctx : Context) : Context := { ctx with m_messages := [] }

/-- `clear_system_message`. -/
def clear_system_message (ctx : Context) : Context := { ctx with m_system_message := none }

/-- `clear_parameters`. -/
def clear_parameters (ctx : Context) : Context := { ctx with m_parameters := [] }

/-- `apply_defaults`: reads `models.default` as a string when declared. -/
def apply_defaults (ctx : Context) : (Except HyniError Unit) × Context :=
  if ctx.m_schema.contains "models" ∧ (ctx.m_schema.get "models").contains "default" then
    match ((ctx.m_schema.get "models").get "default").asString with
    | .ok s => (.ok (), { ctx with m_model_name := s })
    | .error e => (.error e, ctx)
  else (.ok (), ctx)

/-- `reset`: clears messages, system message and parameters, clears the
model name, then reapplies the schema default model. -/
def reset (ctx : Context) : (Except HyniError Unit) × Context :=
  apply_defaults
    { clear_parameters (clear_system_message (clear_user_messages ctx)) with
      m_model_name := "" }

/-- The system-message step of `build_request`: when a system message is
set and supported, either prepend a constructed system message to the
messages array (when `system` is a valid role) or assign the text to a
top-level `system` field. -/
def systemStep (ctx : Context) (req : Json) : Except HyniError (Json × List Json) :=
  match ctx.m_system_message with
  | none => .ok (req, ctx.m_messages)
  | some s =>
      if supports_system_messages ctx then
        if "system" ∈ ctx.m_valid_roles then do
          let m ← create_message ctx "system" s
          pure (req, m :: ctx.m_messages)
        else do
          let req1 ← ofSet (req.setKey "system" (.str s))
          pure (req1, ctx.m_messages)
      else .ok (req, ctx.m_messages)

/-- The custom-parameter application loop of `build_request` (user
parameters overwrite template defaults). -/
def applyParamsE : Json → List (String × Json) → Except HyniError Json
  | req, [] => .ok req
  | req, (k, v) :: rest => do
      let req1 ← ofSet (req.setKey k v)
      applyParamsE req1 rest

/-- A config default (`max_tokens`/`temperature`): applied only when the
field is still absent after parameter application. -/
def setIfAbsent (req : Json) (key : String) (vo : Option Json) : Except HyniError Json :=
  match vo with
  | some v => if ¬ req.contains key then ofSet (req.setKey key v) else pure req
  | none => pure req

/-- `build_request` up to (excluding) the stream resolution: template
copy, model, system placement, messages, custom parameters, config
defaults applied only when absent. -/
def buildPreStream (ctx : Context) : Except HyniError Json :=
  (if ctx.m_model_name = "" then pure ctx.m_request_template
   else ofSet (ctx.m_request_template.setKey "model" (.str ctx.m_model_name))) >>= fun req =>
  systemStep ctx req >>= fun pair =>
  ofSet (pair.1.setKey "messages" (.arr pair.2)) >>= fun req =>
  applyParamsE req ctx.m_parameters >>= fun req =>
  setIfAbsent req "max_tokens" (ctx.m_config.default_max_tokens.map Json.int) >>= fun req =>
  setIfAbsent req "temperature" (ctx.m_config.default_temperature.map Json.num)

/-- The raw schema read `m_schema[features][streaming].get<bool>()`
performed by `build_request` when the caller requests streaming and no
`stream` parameter is set.  Unlike `supports_streaming` this read
mutates the schema (non-const `operator[]` inserts nulls) and throws
when the flag is absent or not a boolean; the pair carries the
possibly-updated schema. -/
def resolveStreamFlag (schema : Json) : (Except HyniError Bool) × Json :=
  if schema.contains "features" then
    match schema.get "features" with
    | .obj fs =>
        match Json.lookupField fs "streaming" with
        | some (.bool b) => (.ok b, schema)
        | some _ => (.error (.jsonError "type must be boolean"), schema)
        | none =>
            (.error (.jsonError "type must be boolean, but is null"),
             schema.setKeyTotal "features" (.obj (fs ++ [("streaming", .null)])))
    | .null =>
        (.error (.jsonError "type must be boolean, but is null"),
         schema.setKeyTotal "features" (.obj [("streaming", .null)]))
    | _ => (.error (.jsonError "cannot use operator with this type"), schema)
  else
    match schema.setKey "features" (.obj [("streaming", .null)]) with
    | some schema1 => (.error (.jsonError "type must be boolean, but is null"), schema1)
    | none => (.error (.jsonError "cannot use operator with this type"), schema)

/-- `build_request`: the pre-stream stages, then the stream resolution
(a user `stream` parameter takes precedence; otherwise the field is
computed from the streaming argument and the schema flag), then the
recursive null strip.  The pair carries the post-call context: the only
member the C++ method can mutate is `m_schema`, through the raw
`features` read. -/
def build_request (ctx : Context) (streaming : Bool) :
    (Except HyniError Json) × Context :=
  match buildPreStream ctx with
  | .error e => (.error e, ctx)
  | .ok req =>
      if has_parameter ctx "stream" then (.ok (removeNulls req), ctx)
      else if streaming then
        match resolveStreamFlag ctx.m_schema with
        | (.ok b, schema1) =>
            (match req.setKey "stream" (.bool b) with
             | some req1 => (.ok (removeNulls req1), { ctx with m_schema := schema1 })
             | none => (.error (.jsonError "cannot use operator with this type"),
                        { ctx with m_schema := schema1 }))
        | (.error e, schema1) => (.error e, { ctx with m_schema := schema1 })
      else
        match req.setKey "stream" (.bool false) with
        | some req1 => (.ok (removeNulls req1), ctx)
        | none => (.error (.jsonError "cannot use operator with this type"), ctx)

/-- `chat_api` holds exactly the context; the HTTP client is an external
collaborator whose invocations are recorded as effects. -/
structure ChatApi where
  m_context : Context
deriving Repr, DecidableEq

/-- Observable transport interactions of a `chat_api` call. -/
inductive Effect where
  | postStream (endpoint : String) (payload : Json) : Effect
deriving Repr, DecidableEq

/-- The user-message presence check of the context-only send overloads. -/
def hasUserMessage (ctx : Context) : Bool :=
  ctx.m_messages.any (fun m => m.get "role" = Json.str "user")

/-- `chat_api::send_message_stream(message, ...)`: the streaming support
check comes first; then the prior user messages are cleared, the new one
appended, a request built (non-streaming build, then `stream` forced to
true) and handed to the streaming POST. -/
def send_message_stream_with (api : ChatApi) (message : String) :
    (Except HyniError Unit) × ChatApi × List Effect :=
  if ¬ supports_streaming api.m_context then (.error .streamingNotSupported, api, [])
  else
    let ctx1 := clear_user_messages api.m_context
    match add_user_message ctx1 message with
    | (.error e, ctx2) => (.error e, ⟨ctx2⟩, [])
    | (.ok _, ctx2) =>
        match build_request ctx2 false with
        | (.error e, ctx3) => (.error e, ⟨ctx3⟩, [])
        | (.ok req, ctx3) =>
            match req.setKey "stream" (.bool true) with
            | some req1 => (.ok (), ⟨ctx3⟩, [Effect.postStream ctx3.m_endpoint req1])
            | none => (.error (.jsonError "cannot use operator with this type"), ⟨ctx3⟩, [])

/-- `chat_api::send_message_stream()` (context-only overload): streaming
support check, then the user-message presence check, then a streaming
build handed to the streaming POST. -/
def send_message_stream_ctx (api : ChatApi) :
    (Except HyniError Unit) × ChatApi × List Effect :=
  if ¬ supports_streaming api.m_context then (.error .streamingNotSupported, api, [])
  else if ¬ hasUserMessage api.m_context then (.error .noUserMessage, api, [])
  else
    match build_request api.m_context true with
    | (.error e, ctx1) => (.error e, ⟨ctx1⟩, [])
    | (.ok req, ctx1) => (.ok (), ⟨ctx1⟩, [Effect.postStream ctx1.m_endpoint req])

/-! Concrete schema documents used to instantiate the theorems. -/

/-- A Claude-style schema: `system` is not a message role, the system
message travels in a top-level field, streaming is declared. -/
def claudeSchema : Json := Json.obj [
  ("provider", Json.obj [("name", Json.str "claude")]),
  ("api", Json.obj [("endpoint", Json.str "https://api.anthropic.com/v1/messages")]),
  ("request_template", Json.obj [
    ("model", Json.str ""),
    ("messages", Json.arr []),
    ("max_tokens", Json.int 1024),
    ("stream", Json.bool false),
    ("temperature", Json.null)]),
  ("message_format", Json.obj [
    ("structure", Json.obj [("role", Json.str "<ROLE>"), ("content", Json.arr [])]),
    ("content_types", Json.obj [
      ("text", Json.obj [("type", Json.str "text"), ("text", Json.str "<TEXT>")])])]),
  ("response_format", Json.obj [
    ("success", Json.obj [
      ("text_path", Json.arr [Json.str "content", Json.int 0, Json.str "text"])])]),
  ("message_roles", Json.arr [Json.str "user", Json.str "assistant"]),
  ("system_message", Json.obj [("supported", Json.bool true)]),
  ("features", Json.obj [("streaming", Json.bool true)]),
  ("models", Json.obj [
    ("default", Json.str "claude-sonnet"),
    ("available", Json.arr [Json.str "claude-sonnet", Json.str "claude-haiku"])]),
  ("parameters", Json.obj [
    ("temperature", Json.obj [
      ("type", Json.str "float"), ("min", Json.int 0), ("max", Json.int 1)]),
    ("max_tokens", Json.obj [
      ("type", Json.str "integer"), ("min", Json.int 1), ("max", Json.int 8192)]),
    ("top_p", Json.obj [
      ("type", Json.str "float"), ("min", Json.int 0), ("max", Json.int 1)])])]

/-- An OpenAI-style schema: `system` is a valid message role and system
messages go at the front of the `messages` array; the text path walks
`choices/0/message/content`. -/
def openaiSchema : Json := Json.obj [
  ("provider", Json.obj [("name", Json.str "openai")]),
  ("api", Json.obj [("endpoint", Json.str "https://api.openai.com/v1/chat/completions")]),
  ("request_template", Json.obj [
    ("model", Json.str ""),
    ("messages", Json.arr [])]),
  ("message_format", Json.obj [
    ("structure", Json.obj [("role", Json.str "<ROLE>"), ("content", Json.str "<TEXT>")]),
    ("content_types", Json.obj [
      ("text", Json.obj [("type", Json.str "text"), ("text", Json.str "<TEXT>")])])]),
  ("response_format", Json.obj [
    ("success", Json.obj [
      ("text_path", Json.arr [Json.str "choices", Json.int 0,
                              Json.str "message", Json.str "content"])])]),
  ("message_roles", Json.arr [Json.str "system", Json.str "user", Json.str "assistant"]),
  ("system_message", Json.obj [("supported", Json.bool true)]),
  ("features", Json.obj [("streaming", Json.bool true)]),
  ("models", Json.obj [("default", Json.str "gpt-4o")])]

/-- A valid schema with no `features` section at all. -/
def noFeaturesSchema : Json := Json.obj [
  ("provider", Json.obj [("name", Json.str "bare")]),
  ("api", Json.obj [("endpoint", Json.str "https://bare.example/v1")]),
  ("request_template", Json.obj [("messages", Json.arr [])]),
  ("message_format", Json.obj [
    ("structure", Json.obj [("role", Json.str "<ROLE>"), ("content", Json.str "<TEXT>")]),
    ("content_types", Json.obj [
      ("text", Json.obj [("text", Json.str "<TEXT>")])])]),
  ("response_format", Json.obj [
    ("success", Json.obj [("text_path", Json.arr [Json.str "text"])])]),
  ("message_roles", Json.arr [Json.str "user", Json.str "assistant"])]

/-- A valid schema declaring `features.streaming = false`. -/
def noStreamSchema : Json := Json.obj [
  ("provider", Json.obj [("name", Json.str "nostream")]),
  ("api", Json.obj [("endpoint", Json.str "https://nostream.example/v1")]),
  ("request_template", Json.obj [("messages", Json.arr [])]),
  ("message_format", Json.obj [
    ("structure", Json.obj [("role", Json.str "<ROLE>"), ("content", Json.str "<TEXT>")]),
    ("content_types", Json.obj [
      ("text", Json.obj [("text", Json.str "<TEXT>")])])]),
  ("response_format", Json.obj [
    ("success", Json.obj [("text_path", Json.arr [Json.str "text"])])]),
  ("message_roles", Json.arr [Json.str "user", Json.str "assistant"]),
  ("features", Json.obj [("streaming", Json.bool false)])]

/-- A valid schema whose `message_format` declares a `user_structure`
override with a fixed role. -/
def userStructSchema : Json := Json.obj [
  ("provider", Json.obj [("name", Json.str "quirky")]),
  ("api", Json.obj [("endpoint", Json.str "https://quirky.example/v1")]),
  ("request_template", Json.obj [("messages", Json.arr [])]),
  ("message_format", Json.obj [
    ("structure", Json.obj [("role", Json.str "<ROLE>"), ("content", Json.str "<TEXT>")]),
    ("user_structure", Json.obj [
      ("role", Json.str "assistant"), ("content", Json.str "<TEXT>")]),
    ("content_types", Json.obj [
      ("text", Json.obj [("text", Json.str "<TEXT>")])])]),
  ("response_format", Json.obj [
    ("success", Json.obj [("text_path", Json.arr [Json.str "text"])])]),
  ("message_roles", Json.arr [Json.str "user", Json.str "assistant"]),
  ("features", Json.obj [("streaming", Json.bool false)])]

/-- A valid schema declaring a numeric parameter with an `enum`
constraint alongside `min`/`max`. -/
def enumParamSchema : Json := Json.obj [
  ("provider", Json.obj [("name", Json.str "enumful")]),
  ("api", Json.obj [("endpoint", Json.str "https://enumful.example/v1")]),
  ("request_template", Json.obj [("messages", Json.arr [])]),
  ("message_format", Json.obj [
    ("structure", Json.obj [("role", Json.str "<ROLE>"), ("content", Json.str "<TEXT>")]),
    ("content_types", Json.obj [
      ("text", Json.obj [("text", Json.str "<TEXT>")])])]),
  ("response_format", Json.obj [
    ("success", Json.obj [("text_path", Json.arr [Json.str "text"])])]),
  ("parameters", Json.obj [
    ("top_k", Json.obj [
      ("type", Json.str "integer"), ("min", Json.int 0), ("max", Json.int 100),
      ("enum", Json.arr [Json.int 5, Json.int 10])])])]

/-- Fallback record for extracting contexts out of `Except`. -/
def emptyContext : Context := {
  m_schema := .null, m_request_template := .null, m_config := {},
  m_provider_name := "", m_endpoint := "", m_headers := [], m_model_name := "",
  m_system_message := none, m_messages := [], m_parameters := [], m_api_key := "",
  m_valid_roles := [], m_text_path := [], m_error_path := [],
  m_message_structure := .null, m_text_content_format := .null,
  m_image_content_format := .null }

def claudeCtx : Context := ((Context.make claudeSchema {}).toOption).getD emptyContext

def openaiCtx : Context := ((Context.make openaiSchema {}).toOption).getD emptyContext

def noFeaturesCtx : Context := ((Context.make noFeaturesSchema {}).toOption).getD emptyContext

def noStreamCtx : Context := ((Context.make noStreamSchema {}).toOption).getD emptyContext

def userStructCtx : Context := ((Context.make userStructSchema {}).toOption).getD emptyContext

def enumParamCtx : Context := ((Context.make enumParamSchema {}).toOption).getD emptyContext

/-- A Claude-style context built with validation disabled. -/
def noValidationCtx : Context :=
  ((Context.make claudeSchema { enable_validation := false }).toOption).getD emptyContext

/-- Validation disabled, `stream` parameter stored as null. -/
def nullStreamCtx : Context := (set_parameter noValidationCtx "stream" Json.null).2

/-- `stream` parameter stored as the boolean true. -/
def boolStreamCtx : Context := (set_parameter claudeCtx "stream" (Json.bool true)).2

/-- Object field lists without duplicate keys (shallow); every object a
real `nlohmann::json` value can hold satisfies this (`std::map` keys). -/
def Json.topNodup : Json → Prop
  | .obj fs => (fs.map Prod.fst).Nodup
  | _ => True
/-- One half, in lowest terms, so kernel evaluation stays structural. -/
def half : ℚ := ⟨1, 2, by decide, by decide⟩

/-- Three halves, in lowest terms. -/
def threeHalves : ℚ := ⟨3, 2, by decide, by decide⟩

/-- Witness for C10 on a busy Claude-style context (API key, one message,
one parameter set). -/
def claudeBusyCtx : Context :=
  (add_user_message
    ((set_api_key ((set_parameter claudeCtx "temperature" (Json.num half)).2)
      "sk-test").2) "hello").2
/-- Claude-style context with system message and one user message. -/
def sysClaudeCtx : Context :=
  (add_user_message ((set_system_message claudeCtx "be nice").2) "hello").2

/-- OpenAI-style context with system message and one user message. -/
def sysOpenaiCtx : Context :=
  (add_user_message ((set_system_message openaiCtx "be nice").2) "hello").2

def reqClaudeSys : Json := Json.obj [("model", Json.str "claude-sonnet"),
  ("messages", Json.arr [Json.obj [("role", Json.str "user"),
    ("content", Json.arr [Json.obj [("type", Json.str "text"),
      ("text", Json.str "hello")]])]]),
  ("max_tokens", Json.int 1024), ("stream", Json.bool false),
  ("system", Json.str "be nice")]

def reqOpenaiSys : Json := Json.obj [("model", Json.str "gpt-4o"),
  ("messages", Json.arr [
    Json.obj [("role", Json.str "system"), ("content", Json.str "be nice")],
    Json.obj [("role", Json.str "user"), ("content", Json.str "hello")]]),
  ("stream", Json.bool false)]
/-- Fresh context over the quirky schema after one user message. -/
def ctxU : Context := (add_user_message userStructCtx "X").2

def reqUserStruct : Json := Json.obj [
  ("messages", Json.arr [Json.obj [("role", Json.str "assistant"),
    ("content", Json.str "X")]]),
  ("stream", Json.bool false)]

def reqOpenaiCleared : Json := Json.obj [("model", Json.str "gpt-4o"),
  ("messages", Json.arr [Json.obj [("role", Json.str "system"),
    ("content", Json.str "be nice")]]),
  ("stream", Json.bool false)]

def reqUserClaude : Json := Json.obj [("model", Json.str "claude-sonnet"),
  ("messages", Json.arr [Json.obj [("role", Json.str "user"),
    ("content", Json.arr [Json.obj [("type", Json.str "text"),
      ("text", Json.str "X")]])]]),
  ("max_tokens", Json.int 1024), ("stream", Json.bool false)]

/-- Claude-style context with one stored parameter and one user message. -/
def paramClaudeCtx : Context :=
  (add_user_message ((set_parameter claudeCtx "top_p" (Json.num half)).2) "hi").2

def reqParamClaude : Json := Json.obj [("model", Json.str "claude-sonnet"),
  ("messages", Json.arr []), ("max_tokens", Json.int 1024),
  ("stream", Json.bool false), ("top_p", Json.num half)]

/-! Inversion and frame lemmas used by the claim proofs. -/

theorem exceptBind_ok {α β : Type} {x : Except HyniError α} {f : α → Except HyniError β}
    {b : β} : (x >>= f) = .ok b ↔ ∃ a, x = .ok a ∧ f a = .ok b := by
  cases x <;> simp [Bind.bind, Except.bind]

theorem exceptBind_error {α β : Type} {x : Except HyniError α} {f : α → Except HyniError β}
    {e : HyniError} :
    (x >>= f) = .error e ↔ x = .error e ∨ ∃ a, x = .ok a ∧ f a = .error e := by
  cases x <;> simp [Bind.bind, Except.bind]

theorem lookupField_setField_self (fs : List (String × Json)) (k : String) (v : Json) :
    Json.lookupField (Json.setField fs k v) k = some v := by
  induction fs with
  | nil => simp [Json.setField, Json.lookupField]
  | cons p rest ih =>
      obtain ⟨k1, v1⟩ := p
      by_cases h : k1 = k <;> simp [Json.setField, Json.lookupField, h, ih]

theorem lookupField_setField_other (fs : List (String × Json)) (k k2 : String) (v : Json)
    (h : k2 ≠ k) :
    Json.lookupField (Json.setField fs k v) k2 = Json.lookupField fs k2 := by
  have hk : ¬ k = k2 := fun hh => h hh.symm
  induction fs with
  | nil => simp [Json.setField, Json.lookupField, hk]
  | cons p rest ih =>
      obtain ⟨k1, v1⟩ := p
      by_cases h1 : k1 = k
      · subst h1
        simp [Json.setField, Json.lookupField, hk]
      · simp [Json.setField, Json.lookupField, h1, ih]

theorem setKey_isObj {j j1 : Json} {k : String} {v : Json}
    (h : j.setKey k v = some j1) : ∃ fs, j1 = Json.obj fs := by
  cases j <;> simp [Json.setKey] at h <;> exact ⟨_, h.symm⟩

theorem get_setKey_self {j j1 : Json} {k : String} {v : Json}
    (h : j.setKey k v = some j1) : j1.get k = v := by
  cases j <;> simp [Json.setKey] at h <;> subst h <;>
    simp [Json.get, Json.lookupField, lookupField_setField_self]

theorem contains_setKey_self {j j1 : Json} {k : String} {v : Json}
    (h : j.setKey k v = some j1) : j1.contains k = true := by
  cases j <;> simp [Json.setKey] at h <;> subst h <;>
    simp [Json.contains, Json.lookupField, lookupField_setField_self]

theorem get_setKey_other {j j1 : Json} {k k2 : String} {v : Json}
    (h : j.setKey k v = some j1) (hne : k2 ≠ k) : j1.get k2 = j.get k2 := by
  have hk : ¬ k = k2 := fun hh => hne hh.symm
  cases j <;> simp [Json.setKey] at h <;> subst h <;>
    simp [Json.get, Json.lookupField, lookupField_setField_other _ _ _ _ hne, hk]

theorem contains_setKey_other {j j1 : Json} {k k2 : String} {v : Json}
    (h : j.setKey k v = some j1) (hne : k2 ≠ k) : j1.contains k2 = j.contains k2 := by
  have hk : ¬ k = k2 := fun hh => hne hh.symm
  cases j <;> simp [Json.setKey] at h <;> subst h <;>
    simp [Json.contains, Json.lookupField, lookupField_setField_other _ _ _ _ hne, hk]

theorem ofSet_ok {o : Option Json} {j : Json} (h : ofSet o = .ok j) : o = some j := by
  cases o with
  | none => simp [ofSet] at h
  | some x => simp [ofSet] at h; simp [h]

theorem lookupField_mem {fs : List (String × Json)} {k : String} {v : Json}
    (h : Json.lookupField fs k = some v) : k ∈ fs.map Prod.fst := by
  induction fs with
  | nil => simp [Json.lookupField] at h
  | cons p rest ih =>
      obtain ⟨k1, v1⟩ := p
      by_cases hk : k1 = k
      · simp [hk]
      · simp only [Json.lookupField, if_neg hk] at h
        simp [ih h]

theorem keys_removeNullsFields_subset {fs : List (String × Json)} {k : String}
    (h : Json.lookupField fs k = none) :
    Json.lookupField (removeNullsFields fs) k = none := by
  induction fs with
  | nil => simp [removeNullsFields, Json.lookupField]
  | cons p rest ih =>
      obtain ⟨k1, v1⟩ := p
      by_cases hk : k1 = k
      · simp [Json.lookupField, hk] at h
      · simp only [Json.lookupField, if_neg hk] at h
        by_cases hv : v1 = Json.null <;>
          simp [removeNullsFields, hv, Json.lookupField, hk, ih h]

theorem lookupField_removeNullsFields {fs : List (String × Json)} {k : String} {v : Json}
    (h : Json.lookupField fs k = some v) (hv : v ≠ Json.null) :
    Json.lookupField (removeNullsFields fs) k = some (removeNulls v) := by
  induction fs with
  | nil => simp [Json.lookupField] at h
  | cons p rest ih =>
      obtain ⟨k1, v1⟩ := p
      by_cases hk : k1 = k
      · subst hk
        simp only [Json.lookupField, eq_self_iff_true, if_true, Option.some.injEq] at h
        subst h
        simp [removeNullsFields, hv, Json.lookupField]
      · simp only [Json.lookupField, if_neg hk] at h
        by_cases hv1 : v1 = Json.null
        · simp [removeNullsFields, hv1, ih h]
        · simp [removeNullsFields, hv1, Json.lookupField, hk, ih h]

/-- A key whose first binding is non-null keeps its (null-stripped) value
through the null strip. -/
theorem get_removeNulls_of_ne_null {j : Json} {k : String}
    (h : j.get k ≠ Json.null) : (removeNulls j).get k = removeNulls (j.get k) := by
  cases j with
  | obj fs =>
      rcases hl : Json.lookupField fs k with _ | v
      · simp [Json.get, hl] at h
      · have hv : v ≠ Json.null := by simpa [Json.get, hl] using h
        simp [removeNulls, Json.get, hl, lookupField_removeNullsFields hl hv]
  | null => simp [Json.get] at h
  | bool b => simp [Json.get] at h
  | int n => simp [Json.get] at h
  | num q => simp [Json.get] at h
  | str s => simp [Json.get] at h
  | arr xs => simp [Json.get] at h

theorem contains_removeNulls_of_get_ne_null {j : Json} {k : String}
    (h : j.get k ≠ Json.null) : (removeNulls j).contains k = true := by
  cases j with
  | obj fs =>
      rcases hl : Json.lookupField fs k with _ | v
      · simp [Json.get, hl] at h
      · have hv : v ≠ Json.null := by simpa [Json.get, hl] using h
        simp [removeNulls, Json.contains, lookupField_removeNullsFields hl hv]
  | null => simp [Json.get] at h
  | bool b => simp [Json.get] at h
  | int n => simp [Json.get] at h
  | num q => simp [Json.get] at h
  | str s => simp [Json.get] at h
  | arr xs => simp [Json.get] at h

theorem removeNullsList_eq_map (xs : List Json) :
    removeNullsList xs = xs.map removeNulls := by
  induction xs with
  | nil => simp [removeNullsList]
  | cons x rest ih => simp [removeNullsList, ih]

theorem removeNulls_eq_str_iff {j : Json} {s : String} :
    removeNulls j = Json.str s ↔ j = Json.str s := by
  cases j <;> simp [removeNulls]

theorem contains_removeNulls_of_not_contains {j : Json} {k : String}
    (h : j.contains k = false) : (removeNulls j).contains k = false := by
  cases j with
  | obj fs =>
      rcases hl : Json.lookupField fs k with _ | v
      · simp [removeNulls, Json.contains, keys_removeNullsFields_subset hl]
      · simp [Json.contains, hl] at h
  | null => simp [removeNulls, Json.contains]
  | bool b => simp [removeNulls, Json.contains]
  | int n => simp [removeNulls, Json.contains]
  | num q => simp [removeNulls, Json.contains]
  | str s => simp [removeNulls, Json.contains]
  | arr xs => simp [removeNulls, Json.contains]

theorem lookupField_removeNullsFields_of_null {fs : List (String × Json)} {k : String}
    (hwf : (fs.map Prod.fst).Nodup) (h : Json.lookupField fs k = some Json.null) :
    Json.lookupField (removeNullsFields fs) k = none := by
  induction fs with
  | nil => simp [Json.lookupField] at h
  | cons p rest ih =>
      obtain ⟨k1, v1⟩ := p
      simp only [List.map_cons, List.nodup_cons] at hwf
      by_cases hk : k1 = k
      · subst hk
        simp only [Json.lookupField, eq_self_iff_true, if_true, Option.some.injEq] at h
        subst h
        have hrest : Json.lookupField rest k1 = none := by
          rcases hr : Json.lookupField rest k1 with _ | w
          · rfl
          · exact absurd (lookupField_mem hr) hwf.1
        simp [removeNullsFields, keys_removeNullsFields_subset hrest]
      · simp only [Json.lookupField, if_neg hk] at h
        by_cases hv1 : v1 = Json.null
        · simp [removeNullsFields, hv1, ih hwf.2 h]
        · simp [removeNullsFields, hv1, Json.lookupField, hk, ih hwf.2 h]

theorem get_removeNulls_ne_str {j : Json} {k s : String} (hwf : j.topNodup)
    (h : j.get k ≠ Json.str s) : (removeNulls j).get k ≠ Json.str s := by
  cases j with
  | obj fs =>
      rcases hl : Json.lookupField fs k with _ | v
      · simp [removeNulls, Json.get, keys_removeNullsFields_subset hl]
      · by_cases hv : v = Json.null
        · subst hv
          simp only [Json.topNodup] at hwf
          simp [removeNulls, Json.get, lookupField_removeNullsFields_of_null hwf hl]
        · have hlr := lookupField_removeNullsFields hl hv
          have hvs : v ≠ Json.str s := by
            intro hc
            exact h (by simp [Json.get, hl, hc])
          simp only [removeNulls, Json.get, hlr, Option.getD_some]
          intro hc
          exact hvs (removeNulls_eq_str_iff.mp hc)
  | null => simp [removeNulls, Json.get]
  | bool b => simp [removeNulls, Json.get]
  | int n => simp [removeNulls, Json.get]
  | num q => simp [removeNulls, Json.get]
  | str s2 => simp [removeNulls, Json.get]
  | arr xs => simp [removeNulls, Json.get]

theorem make_error_of_validate {s : Json} {cfg : ContextConfig} {e : HyniError}
    (h : validate_schema s = .error e) : Context.make s cfg = .error e := by
  simp only [Context.make, h]
  rfl

theorem validate_error_of_missing (s : Json)
    (h : ¬ s.contains "provider" ∨ ¬ s.contains "api" ∨ ¬ s.contains "request_template" ∨
         ¬ s.contains "message_format" ∨ ¬ s.contains "response_format" ∨
         ¬ (s.get "api").contains "endpoint" ∨
         ¬ (s.get "message_format").contains "structure" ∨
         ¬ (s.get "message_format").contains "content_types" ∨
         ¬ (s.get "response_format").contains "success" ∨
         ¬ ((s.get "response_format").get "success").contains "text_path") :
    ∃ msg, validate_schema s = .error (.schemaError msg) := by
  unfold validate_schema
  repeat first
    | exact ⟨_, rfl⟩
    | split
  all_goals (exfalso; rcases h with h | h | h | h | h | h | h | h | h | h <;> simp_all)

/-- C1: a schema missing any of the required top-level sections
(`provider`, `api`, `request_template`, `message_format`,
`response_format`) or any of the required nested fields (`api.endpoint`,
`message_format.structure`, `message_format.content_types`,
`response_format.success.text_path`, including a missing
`response_format.success`) makes context construction fail with a schema
error; no context value is produced. -/
theorem C1_schema_validation (s : Json) (cfg : ContextConfig)
    (h : ¬ s.contains "provider" ∨ ¬ s.contains "api" ∨ ¬ s.contains "request_template" ∨
         ¬ s.contains "message_format" ∨ ¬ s.contains "response_format" ∨
         ¬ (s.get "api").contains "endpoint" ∨
         ¬ (s.get "message_format").contains "structure" ∨
         ¬ (s.get "message_format").contains "content_types" ∨
         ¬ (s.get "response_format").contains "success" ∨
         ¬ ((s.get "response_format").get "success").contains "text_path") :
    ∃ msg, Context.make s cfg = .error (.schemaError msg) := by
  obtain ⟨msg, hm⟩ := validate_error_of_missing s h
  exact ⟨msg, make_error_of_validate hm⟩

/-- Witness for C1: a schema with everything but `provider`, and a schema
missing only the nested `api.endpoint`, both fail construction. -/
theorem C1_schema_validation_witness :
    (∃ msg, Context.make (Json.obj []) {} = .error (.schemaError msg)) ∧
    (∃ msg, Context.make (Json.obj [
      ("provider", Json.obj [("name", Json.str "p")]),
      ("api", Json.obj []),
      ("request_template", Json.obj []),
      ("message_format", Json.obj [
        ("structure", Json.obj []), ("content_types", Json.obj [])]),
      ("response_format", Json.obj [
        ("success", Json.obj [("text_path", Json.arr [])])])]) {} =
      .error (.schemaError msg)) := by
  constructor
  · exact C1_schema_validation (Json.obj []) {} (Or.inl (by decide))
  · exact C1_schema_validation _ {}
      (Or.inr (Or.inr (Or.inr (Or.inr (Or.inr (Or.inl (by decide)))))))

/-- C10: `reset` empties the message list, clears the system message,
empties the parameter map, and sets the model name to `models.default`
when that is declared (as a string), or to the empty string when no
default is declared; the API key, headers, endpoint, provider name and
stored schema are untouched, so `has_api_key` keeps its value. -/
theorem contains_of_get_ne_null {j : Json} {k : String} (h : j.get k ≠ Json.null) :
    j.contains k = true := by
  cases j with
  | obj fs =>
      rcases hl : Json.lookupField fs k with _ | v
      · simp [Json.get, hl] at h
      · simp [Json.contains, hl]
  | null => simp [Json.get] at h
  | bool b => simp [Json.get] at h
  | int n => simp [Json.get] at h
  | num q => simp [Json.get] at h
  | str s => simp [Json.get] at h
  | arr xs => simp [Json.get] at h

theorem apply_defaults_snd (c : Context) :
    ((apply_defaults c).2.m_schema = c.m_schema ∧
     (apply_defaults c).2.m_messages = c.m_messages ∧
     (apply_defaults c).2.m_system_message = c.m_system_message ∧
     (apply_defaults c).2.m_parameters = c.m_parameters ∧
     (apply_defaults c).2.m_api_key = c.m_api_key ∧
     (apply_defaults c).2.m_headers = c.m_headers ∧
     (apply_defaults c).2.m_endpoint = c.m_endpoint ∧
     (apply_defaults c).2.m_provider_name = c.m_provider_name) ∧
    (∀ s, (c.m_schema.get "models").get "default" = Json.str s →
       c.m_schema.contains "models" = true →
       (apply_defaults c).2.m_model_name = s) ∧
    (¬ (c.m_schema.contains "models" = true ∧
        (c.m_schema.get "models").contains "default" = true) →
       (apply_defaults c).2.m_model_name = c.m_model_name) := by
  unfold apply_defaults
  split
  · rename_i hcond
    split
    · rename_i s hok
      refine ⟨⟨rfl, rfl, rfl, rfl, rfl, rfl, rfl, rfl⟩, ?_, ?_⟩
      · intro s2 hd _
        rw [hd] at hok
        simp only [Json.asString, Except.ok.injEq] at hok
        simp [hok]
      · intro hnot; exact absurd hcond hnot
    · rename_i e herr
      refine ⟨⟨rfl, rfl, rfl, rfl, rfl, rfl, rfl, rfl⟩, ?_, ?_⟩
      · intro s2 hd _
        rw [hd] at herr
        simp [Json.asString] at herr
      · intro hnot; exact absurd hcond hnot
  · rename_i hcond
    refine ⟨⟨rfl, rfl, rfl, rfl, rfl, rfl, rfl, rfl⟩, ?_, ?_⟩
    · intro s hd hm
      exfalso
      exact hcond ⟨hm, contains_of_get_ne_null (by rw [hd]; simp)⟩
    · intro _; rfl

/-- C10: `reset` empties the message list, clears the system message,
empties the parameter map, and sets the model name to `models.default`
when that is declared (as a string), or to the empty string when no
default is declared; the API key, headers, endpoint, provider name and
stored schema are untouched, so `has_api_key` keeps its value. -/
theorem C10_reset_frame (ctx : Context) :
    (reset ctx).2.m_messages = [] ∧
    (reset ctx).2.m_system_message = none ∧
    (reset ctx).2.m_parameters = [] ∧
    (reset ctx).2.m_api_key = ctx.m_api_key ∧
    (reset ctx).2.m_headers = ctx.m_headers ∧
    (reset ctx).2.m_endpoint = ctx.m_endpoint ∧
    (reset ctx).2.m_provider_name = ctx.m_provider_name ∧
    (reset ctx).2.m_schema = ctx.m_schema ∧
    has_api_key (reset ctx).2 = has_api_key ctx ∧
    (∀ s, ctx.m_schema.contains "models" = true →
       (ctx.m_schema.get "models").get "default" = Json.str s →
       (reset ctx).2.m_model_name = s) ∧
    (¬ (ctx.m_schema.contains "models" = true ∧
        (ctx.m_schema.get "models").contains "default" = true) →
       (reset ctx).2.m_model_name = "") := by
  obtain ⟨⟨f1, f2, f3, f4, f5, f6, f7, f8⟩, hmod, hnomod⟩ :=
    apply_defaults_snd
      { clear_parameters (clear_system_message (clear_user_messages ctx)) with
        m_model_name := "" }
  unfold reset
  refine ⟨f2, f3, f4, f5, f6, f7, f8, f1, ?_, fun s hm hd => hmod s hd hm,
    fun hnot => hnomod hnot⟩
  unfold has_api_key
  rw [f5]
  rfl

theorem lookupField_eq_none_of_not_mem {fs : List (String × Json)} {k : String}
    (h : k ∉ fs.map Prod.fst) : Json.lookupField fs k = none := by
  rcases hl : Json.lookupField fs k with - | v
  · rfl
  · exact absurd (lookupField_mem hl) h

theorem setIfAbsent_preserves {req req1 : Json} {key k2 : String} {vo : Option Json}
    (h : setIfAbsent req key vo = .ok req1) (hk : k2 ≠ key) :
    req1.get k2 = req.get k2 ∧ req1.contains k2 = req.contains k2 := by
  cases vo with
  | none =>
      unfold setIfAbsent at h
      simp only [pure, Except.pure, Except.ok.injEq] at h
      subst h
      exact ⟨rfl, rfl⟩
  | some v =>
      unfold setIfAbsent at h
      split at h
      · split at h
        · have hsk := ofSet_ok h
          exact ⟨get_setKey_other hsk hk, contains_setKey_other hsk hk⟩
        · simp only [pure, Except.pure, Except.ok.injEq] at h
          subst h
          exact ⟨rfl, rfl⟩
      · rename_i heq
        cases heq

theorem modelStep_preserves {name : String} {req req1 : Json} {k2 : String}
    (h : (if name = "" then pure req else ofSet (req.setKey "model" (.str name))) =
      .ok req1) (hk : k2 ≠ "model") :
    req1.get k2 = req.get k2 ∧ req1.contains k2 = req.contains k2 := by
  split at h
  · simp only [pure, Except.pure, Except.ok.injEq] at h
    subst h
    exact ⟨rfl, rfl⟩
  · have hsk := ofSet_ok h
    exact ⟨get_setKey_other hsk hk, contains_setKey_other hsk hk⟩

theorem applyParamsE_not_mem {k : String} :
    ∀ (ps : List (String × Json)) (req req1 : Json),
    Json.lookupField ps k = none → applyParamsE req ps = .ok req1 →
    req1.get k = req.get k ∧ req1.contains k = req.contains k := by
  intro ps
  induction ps with
  | nil =>
      intro req req1 _ h
      simp only [applyParamsE, Except.ok.injEq] at h
      subst h
      exact ⟨rfl, rfl⟩
  | cons p rest ih =>
      intro req req1 hnone h
      obtain ⟨k1, v1⟩ := p
      have hk1 : ¬ (k1 = k) := by
        intro hh
        simp [Json.lookupField, hh] at hnone
      have hrest : Json.lookupField rest k = none := by
        simpa [Json.lookupField, hk1] using hnone
      unfold applyParamsE at h
      rw [exceptBind_ok] at h
      obtain ⟨r1, hr1, h2⟩ := h
      have hsk := ofSet_ok hr1
      obtain ⟨hg, hc⟩ := ih r1 req1 hrest h2
      exact ⟨hg.trans (get_setKey_other hsk (fun hh => hk1 hh.symm)),
             hc.trans (contains_setKey_other hsk (fun hh => hk1 hh.symm))⟩

theorem applyParamsE_lookup {k : String} {v : Json} :
    ∀ (ps : List (String × Json)) (req req1 : Json),
    (ps.map Prod.fst).Nodup → Json.lookupField ps k = some v →
    applyParamsE req ps = .ok req1 → req1.get k = v ∧ req1.contains k = true := by
  intro ps
  induction ps with
  | nil =>
      intro req req1 _ hl _
      simp [Json.lookupField] at hl
  | cons p rest ih =>
      intro req req1 hnd hl h
      obtain ⟨k1, v1⟩ := p
      simp only [List.map_cons, List.nodup_cons] at hnd
      unfold applyParamsE at h
      rw [exceptBind_ok] at h
      obtain ⟨r1, hr1, h2⟩ := h
      have hsk := ofSet_ok hr1
      by_cases hk1 : k1 = k
      · subst hk1
        simp only [Json.lookupField, eq_self_iff_true, if_true, Option.some.injEq] at hl
        subst hl
        have hrest : Json.lookupField rest k1 = none :=
          lookupField_eq_none_of_not_mem hnd.1
        obtain ⟨hg, hc⟩ := applyParamsE_not_mem rest r1 req1 hrest h2
        exact ⟨hg.trans (get_setKey_self hsk),
               hc.trans (contains_setKey_self hsk)⟩
      · simp only [Json.lookupField, if_neg hk1] at hl
        exact ih r1 req1 hnd.2 hl h2

theorem systemStep_parts {ctx : Context} {req : Json} {pr : Json × List Json}
    (h : systemStep ctx req = .ok pr) :
    ((ctx.m_system_message = none ∨ supports_system_messages ctx = false ∨
        "system" ∈ ctx.m_valid_roles) → pr.1 = req) ∧
    (∀ s, ctx.m_system_message = some s → supports_system_messages ctx = true →
       "system" ∉ ctx.m_valid_roles → req.setKey "system" (.str s) = some pr.1) ∧
    ((ctx.m_system_message = none ∨ supports_system_messages ctx = false) →
       pr.2 = ctx.m_messages) ∧
    (∀ s, ctx.m_system_message = some s → supports_system_messages ctx = true →
       "system" ∈ ctx.m_valid_roles →
       ∃ m, create_message ctx "system" s = .ok m ∧ pr.2 = m :: ctx.m_messages) ∧
    (∀ s, ctx.m_system_message = some s → supports_system_messages ctx = true →
       "system" ∉ ctx.m_valid_roles → pr.2 = ctx.m_messages) := by
  unfold systemStep at h
  cases hsm : ctx.m_system_message with
  | none =>
      simp only [hsm, Except.ok.injEq] at h
      subst h
      refine ⟨fun _ => rfl, ?_, fun _ => rfl, ?_, ?_⟩
      · intro s hs
        simp at hs
      · intro s hs
        simp at hs
      · intro s hs
        simp at hs
  | some s0 =>
      simp only [hsm] at h
      by_cases hsup : supports_system_messages ctx = true
      · rw [if_pos hsup] at h
        by_cases hrole : "system" ∈ ctx.m_valid_roles
        · rw [if_pos hrole] at h
          rw [exceptBind_ok] at h
          obtain ⟨m, hm, h2⟩ := h
          simp only [pure, Except.pure, Except.ok.injEq] at h2
          subst h2
          refine ⟨?_, ?_, ?_, ?_, ?_⟩
          · rintro (hc | hc | hc)
            · simp at hc
            · exact absurd (hsup.symm.trans hc) (by simp)
            · rfl
          · intro s hs hsup2 hnr
            exact absurd hrole hnr
          · rintro (hc | hc)
            · simp at hc
            · exact absurd (hsup.symm.trans hc) (by simp)
          · intro s hs _ _
            obtain rfl : s0 = s := by injection hs
            exact ⟨m, hm, rfl⟩
          · intro s hs _ hnr
            exact absurd hrole hnr
        · rw [if_neg hrole] at h
          rw [exceptBind_ok] at h
          obtain ⟨r1, hr1, h2⟩ := h
          simp only [pure, Except.pure, Except.ok.injEq] at h2
          subst h2
          refine ⟨?_, ?_, ?_, ?_, ?_⟩
          · rintro (hc | hc | hc)
            · simp at hc
            · exact absurd (hsup.symm.trans hc) (by simp)
            · exact absurd hc hrole
          · intro s hs _ _
            obtain rfl : s0 = s := by injection hs
            exact ofSet_ok hr1
          · rintro (hc | hc)
            · simp at hc
            · exact absurd (hsup.symm.trans hc) (by simp)
          · intro s hs hsup2 hr
            exact absurd hr hrole
          · intro s hs _ _
            rfl
      · rw [if_neg hsup] at h
        simp only [Except.ok.injEq] at h
        subst h
        refine ⟨?_, ?_, fun _ => rfl, ?_, ?_⟩
        · intro _; rfl
        · intro s hs hsup2
          exact absurd hsup2 hsup
        · intro s hs hsup2
          exact absurd hsup2 hsup
        · intro s hs hsup2
          exact absurd hsup2 hsup

theorem resolveStreamFlag_ok_schema {schema : Json} {b : Bool} {schema1 : Json}
    (h : resolveStreamFlag schema = (.ok b, schema1)) : schema1 = schema := by
  unfold resolveStreamFlag at h
  split at h
  · split at h
    · split at h
      · simp only [Prod.mk.injEq] at h
        exact h.2.symm
      · simp only [Prod.mk.injEq] at h
        exact absurd h.1 (by simp)
      · simp only [Prod.mk.injEq] at h
        exact absurd h.1 (by simp)
    · simp only [Prod.mk.injEq] at h
      exact absurd h.1 (by simp)
    · simp only [Prod.mk.injEq] at h
      exact absurd h.1 (by simp)
  · split at h <;> simp only [Prod.mk.injEq] at h <;> exact absurd h.1 (by simp)

/-- C3: on a context whose schema passes `validate_schema`, a successful
`build_request` leaves the context exactly as it was, and calling it
again with the same streaming argument returns the identical JSON
value. -/
theorem C3_build_request_deterministic (ctx : Context) (s : Bool) (req : Json)
    (ctx1 : Context) (_hvalid : validate_schema ctx.m_schema = .ok ())
    (h : build_request ctx s = (.ok req, ctx1)) :
    ctx1 = ctx ∧ build_request ctx1 s = (.ok req, ctx1) := by
  have hframe : ctx1 = ctx := by
    unfold build_request at h
    rcases hpre : buildPreStream ctx with e | req0
    · simp only [hpre, Prod.mk.injEq] at h
      exact absurd h.1 (by simp)
    · simp only [hpre] at h
      by_cases hsp : has_parameter ctx "stream" = true
      · rw [if_pos hsp] at h
        simp only [Prod.mk.injEq] at h
        exact h.2.symm
      · rw [if_neg hsp] at h
        cases s with
        | true =>
            rw [if_pos rfl] at h
            rcases hf : resolveStreamFlag ctx.m_schema with ⟨r, schema1⟩
            rw [hf] at h
            cases r with
            | ok b =>
                rcases hsk : req0.setKey "stream" (.bool b) with - | req1
                · simp only [hsk, Prod.mk.injEq] at h
                  exact absurd h.1 (by simp)
                · simp only [hsk, Prod.mk.injEq] at h
                  rw [← h.2, resolveStreamFlag_ok_schema hf]
            | error e =>
                simp only [Prod.mk.injEq] at h
                exact absurd h.1 (by simp)
        | false =>
            rw [if_neg (by simp)] at h
            rcases hsk : req0.setKey "stream" (.bool false) with - | req1
            · simp only [hsk, Prod.mk.injEq] at h
              exact absurd h.1 (by simp)
            · simp only [hsk, Prod.mk.injEq] at h
              exact h.2.symm
  refine ⟨hframe, ?_⟩
  rw [hframe] at h ⊢
  exact h

/-- Witness for C3 on the fresh Claude-style context. -/
theorem C3_build_request_deterministic_witness :
    build_request claudeCtx false =
      (.ok (Json.obj [("model", Json.str "claude-sonnet"),
        ("messages", Json.arr []), ("max_tokens", Json.int 1024),
        ("stream", Json.bool false)]), claudeCtx) ∧
    (build_request claudeCtx false).2 = claudeCtx ∧
    build_request (build_request claudeCtx false).2 false = build_request claudeCtx false := by
  have hb : build_request claudeCtx false =
      (.ok (Json.obj [("model", Json.str "claude-sonnet"),
        ("messages", Json.arr []), ("max_tokens", Json.int 1024),
        ("stream", Json.bool false)]), claudeCtx) := by decide
  have h := C3_build_request_deterministic claudeCtx false
    (Json.obj [("model", Json.str "claude-sonnet"),
      ("messages", Json.arr []), ("max_tokens", Json.int 1024),
      ("stream", Json.bool false)]) claudeCtx (by decide) hb
  refine ⟨hb, by rw [hb], ?_⟩
  rw [hb]
  exact h.2.trans hb.symm

theorem resolveStreamFlag_of_bool {schema : Json} {b : Bool}
    (h : (schema.get "features").get "streaming" = Json.bool b) :
    resolveStreamFlag schema = (.ok b, schema) := by
  cases hf : schema.get "features" with
  | obj fs =>
      have hc : schema.contains "features" = true :=
        contains_of_get_ne_null (by rw [hf]; simp)
      rw [hf] at h
      simp only [Json.get] at h
      rcases hl : Json.lookupField fs "streaming" with - | v
      · rw [hl] at h
        simp at h
      · rw [hl] at h
        simp only [Option.getD_some] at h
        subst h
        unfold resolveStreamFlag
        rw [if_pos hc]
        simp [hf, hl]
  | null => rw [hf] at h; simp [Json.get] at h
  | bool b2 => rw [hf] at h; simp [Json.get] at h
  | int n => rw [hf] at h; simp [Json.get] at h
  | num q => rw [hf] at h; simp [Json.get] at h
  | str s => rw [hf] at h; simp [Json.get] at h
  | arr xs => rw [hf] at h; simp [Json.get] at h

theorem resolveStreamFlag_error_of_not_bool {schema : Json}
    (h : ∀ b, (schema.get "features").get "streaming" ≠ Json.bool b) :
    ∃ e schema1, resolveStreamFlag schema = (.error e, schema1) := by
  unfold resolveStreamFlag
  by_cases hc : schema.contains "features" = true
  · rw [if_pos hc]
    cases hf : schema.get "features" with
    | obj fs =>
        rcases hl : Json.lookupField fs "streaming" with - | v
        · simp only [hl]
          exact ⟨_, _, rfl⟩
        · cases v with
          | bool b =>
              exfalso
              refine h b ?_
              rw [hf]
              simp [Json.get, hl]
          | null => simp only [hl]; exact ⟨_, _, rfl⟩
          | int n => simp only [hl]; exact ⟨_, _, rfl⟩
          | num q => simp only [hl]; exact ⟨_, _, rfl⟩
          | str s => simp only [hl]; exact ⟨_, _, rfl⟩
          | arr xs => simp only [hl]; exact ⟨_, _, rfl⟩
          | obj fs2 => simp only [hl]; exact ⟨_, _, rfl⟩
    | null => exact ⟨_, _, rfl⟩
    | bool b2 => exact ⟨_, _, rfl⟩
    | int n => exact ⟨_, _, rfl⟩
    | num q => exact ⟨_, _, rfl⟩
    | str s => exact ⟨_, _, rfl⟩
    | arr xs => exact ⟨_, _, rfl⟩
  · rw [if_neg hc]
    split
    · exact ⟨_, _, rfl⟩
    · exact ⟨_, _, rfl⟩

theorem buildPreStream_parts {ctx : Context} {req0 : Json}
    (h : buildPreStream ctx = .ok req0) :
    ∃ r1 pr r3 r4 r5,
      (if ctx.m_model_name = "" then pure ctx.m_request_template
       else ofSet (ctx.m_request_template.setKey "model"
         (.str ctx.m_model_name))) = .ok r1 ∧
      systemStep ctx r1 = .ok pr ∧
      (pr.1.setKey "messages" (.arr pr.2)) = some r3 ∧
      applyParamsE r3 ctx.m_parameters = .ok r4 ∧
      setIfAbsent r4 "max_tokens" (ctx.m_config.default_max_tokens.map Json.int) = .ok r5 ∧
      setIfAbsent r5 "temperature"
        (ctx.m_config.default_temperature.map Json.num) = .ok req0 := by
  unfold buildPreStream at h
  rw [exceptBind_ok] at h
  obtain ⟨r1, hr1, h⟩ := h
  rw [exceptBind_ok] at h
  obtain ⟨pr, hpr, h⟩ := h
  rw [exceptBind_ok] at h
  obtain ⟨r3, hr3, h⟩ := h
  rw [exceptBind_ok] at h
  obtain ⟨r4, hr4, h⟩ := h
  rw [exceptBind_ok] at h
  obtain ⟨r5, hr5, h⟩ := h
  exact ⟨r1, pr, r3, r4, r5, hr1, hpr, ofSet_ok hr3, hr4, hr5, h⟩

/-- C5 (amended): when a `stream` parameter is stored, `build_request`
skips the stream resolution and the stored value goes through the
null strip like any other field (a non-null value thus reaches the
payload); with no stored `stream` parameter: the payload carries
`stream=false` when the streaming argument is false, `stream=b` when the
streaming argument is true and the schema's `features.streaming` is the
boolean `b`; but when the streaming argument is true and
`features.streaming` is absent or not a boolean, `build_request` throws
instead of producing a payload. -/
theorem C5_stream_resolution (ctx : Context) :
    (∀ v req, Json.lookupField ctx.m_parameters "stream" = some v →
       (ctx.m_parameters.map Prod.fst).Nodup → v ≠ Json.null →
       ∀ strm, (build_request ctx strm).1 = .ok req →
       req.contains "stream" = true ∧ req.get "stream" = removeNulls v) ∧
    (has_parameter ctx "stream" = false →
       ∀ req, (build_request ctx false).1 = .ok req →
       req.get "stream" = Json.bool false) ∧
    (has_parameter ctx "stream" = false →
       ∀ b req, (ctx.m_schema.get "features").get "streaming" = Json.bool b →
       (build_request ctx true).1 = .ok req → req.get "stream" = Json.bool b) ∧
    (has_parameter ctx "stream" = false →
       (∀ b, (ctx.m_schema.get "features").get "streaming" ≠ Json.bool b) →
       ∃ e, (build_request ctx true).1 = .error e) := by
  refine ⟨?_, ?_, ?_, ?_⟩
  · intro v req hv hnd hvn strm hok
    unfold build_request at hok
    rcases hpre : buildPreStream ctx with e | req0
    · simp only [hpre] at hok
      exact absurd hok (by simp)
    · simp only [hpre] at hok
      have hp : has_parameter ctx "stream" = true := by
        simp [has_parameter, hv]
      rw [if_pos hp] at hok
      simp only [Except.ok.injEq] at hok
      subst hok
      obtain ⟨r1, pr, r3, r4, r5, hr1, hpr, hr3, hr4, hr5, hr6⟩ := buildPreStream_parts hpre
      obtain ⟨hg4, hc4⟩ := applyParamsE_lookup ctx.m_parameters r3 r4 hnd hv hr4
      have hp5 : r5.get "stream" = r4.get "stream" ∧
          r5.contains "stream" = r4.contains "stream" :=
        setIfAbsent_preserves hr5 (by decide)
      have hp6 : req0.get "stream" = r5.get "stream" ∧
          req0.contains "stream" = r5.contains "stream" :=
        setIfAbsent_preserves hr6 (by decide)
      obtain ⟨hg5, hc5⟩ := hp5
      obtain ⟨hg6, hc6⟩ := hp6
      have hg : req0.get "stream" = v := (hg6.trans hg5).trans hg4
      have hgn : req0.get "stream" ≠ Json.null := by rw [hg]; exact hvn
      refine ⟨contains_removeNulls_of_get_ne_null hgn, ?_⟩
      rw [get_removeNulls_of_ne_null hgn, hg]
  · intro hnp req hok
    unfold build_request at hok
    rcases hpre : buildPreStream ctx with e | req0
    · simp only [hpre] at hok
      exact absurd hok (by simp)
    · simp only [hpre] at hok
      rw [if_neg (by simp [hnp]), if_neg (by simp)] at hok
      rcases hsk : req0.setKey "stream" (Json.bool false) with - | req1
      · simp only [hsk] at hok
        exact absurd hok (by simp)
      · simp only [hsk, Except.ok.injEq] at hok
        subst hok
        have hgn : req1.get "stream" ≠ Json.null := by
          rw [get_setKey_self hsk]
          simp
        rw [get_removeNulls_of_ne_null hgn, get_setKey_self hsk]
        rfl
  · intro hnp b req hflag hok
    unfold build_request at hok
    rcases hpre : buildPreStream ctx with e | req0
    · simp only [hpre] at hok
      exact absurd hok (by simp)
    · simp only [hpre] at hok
      rw [if_neg (by simp [hnp]), if_pos trivial] at hok
      rw [resolveStreamFlag_of_bool hflag] at hok
      rcases hsk : req0.setKey "stream" (Json.bool b) with - | req1
      · simp only [hsk] at hok
        exact absurd hok (by simp)
      · simp only [hsk, Except.ok.injEq] at hok
        subst hok
        have hgn : req1.get "stream" ≠ Json.null := by
          rw [get_setKey_self hsk]
          simp
        rw [get_removeNulls_of_ne_null hgn, get_setKey_self hsk]
        rfl
  · intro hnp hnb
    unfold build_request
    rcases hpre : buildPreStream ctx with e | req0
    · simp only [hpre]
      exact ⟨e, rfl⟩
    · simp only [hpre]
      rw [if_neg (by simp [hnp]), if_pos trivial]
      obtain ⟨e, schema1, hrf⟩ := resolveStreamFlag_error_of_not_bool hnb
      rw [hrf]
      exact ⟨e, rfl⟩

/-- Counterexample for C5 as frozen: on a valid schema with no
`features` section, `build_request` with the streaming argument true
throws a type error instead of producing a payload with `stream=false`;
and a stored null `stream` parameter does not stay in the payload
untouched — the null strip removes the field entirely. -/
theorem C5_stream_resolution_counterexample :
    (has_parameter noFeaturesCtx "stream" = false ∧
      (build_request noFeaturesCtx true).1 =
        .error (.jsonError "type must be boolean, but is null")) ∧
    (has_parameter nullStreamCtx "stream" = true ∧
      (build_request nullStreamCtx false).1 =
        .ok (Json.obj [("model", Json.str "claude-sonnet"),
          ("messages", Json.arr []), ("max_tokens", Json.int 1024)]) ∧
      (Json.obj [("model", Json.str "claude-sonnet"),
        ("messages", Json.arr []),
        ("max_tokens", Json.int 1024)]).contains "stream" = false) := by
  exact ⟨⟨by decide, by decide⟩, by decide, by decide, by decide⟩

/-- Witness for C5 (amended), one instance per conjunct. -/
theorem C5_stream_resolution_witness :
    ((Json.obj [("model", Json.str "claude-sonnet"), ("messages", Json.arr []),
        ("max_tokens", Json.int 1024),
        ("stream", Json.bool true)]).get "stream" = Json.bool true) ∧
    ((Json.obj [("model", Json.str "claude-sonnet"), ("messages", Json.arr []),
        ("max_tokens", Json.int 1024),
        ("stream", Json.bool false)]).get "stream" = Json.bool false) ∧
    (∃ e, (build_request noFeaturesCtx true).1 = .error e) := by
  have h1 := (C5_stream_resolution boolStreamCtx).1 (Json.bool true)
    (Json.obj [("model", Json.str "claude-sonnet"), ("messages", Json.arr []),
      ("max_tokens", Json.int 1024), ("stream", Json.bool true)])
    (by decide) (by decide) (by decide) false (by decide)
  have h2 := (C5_stream_resolution claudeCtx).2.1 (by decide)
    (Json.obj [("model", Json.str "claude-sonnet"), ("messages", Json.arr []),
      ("max_tokens", Json.int 1024), ("stream", Json.bool false)]) (by decide)
  have h4 := (C5_stream_resolution noFeaturesCtx).2.2.2 (by decide) (by decide)
  exact ⟨by rw [h1.2]; rfl, h2, h4⟩

theorem build_request_ok_shape {ctx : Context} {strm : Bool} {req : Json}
    (h : (build_request ctx strm).1 = .ok req) :
    ∃ req0 reqF, buildPreStream ctx = .ok req0 ∧ req = removeNulls reqF ∧
      (∀ k, k ≠ "stream" →
        reqF.get k = req0.get k ∧ reqF.contains k = req0.contains k) ∧
      (∀ k, req0.get k ≠ Json.null → reqF.get k ≠ Json.null) := by
  unfold build_request at h
  rcases hpre : buildPreStream ctx with e | req0
  · simp only [hpre] at h
    exact absurd h (by simp)
  · simp only [hpre] at h
    by_cases hp : has_parameter ctx "stream" = true
    · rw [if_pos hp] at h
      simp only [Except.ok.injEq] at h
      exact ⟨req0, req0, rfl, h.symm, fun k _ => ⟨rfl, rfl⟩, fun k hk => hk⟩
    · rw [if_neg hp] at h
      cases strm with
      | false =>
          rw [if_neg (by simp)] at h
          rcases hsk : req0.setKey "stream" (Json.bool false) with - | req1
          · simp only [hsk] at h
            exact absurd h (by simp)
          · simp only [hsk, Except.ok.injEq] at h
            refine ⟨req0, req1, rfl, h.symm,
              fun k hk => ⟨get_setKey_other hsk hk, contains_setKey_other hsk hk⟩,
              fun k hk => ?_⟩
            by_cases hks : k = "stream"
            · subst hks
              rw [get_setKey_self hsk]
              simp
            · rw [get_setKey_other hsk hks]
              exact hk
      | true =>
          rw [if_pos (show (true : Bool) = true from rfl)] at h
          rcases hrf : resolveStreamFlag ctx.m_schema with ⟨r, schema1⟩
          rw [hrf] at h
          cases r with
          | error e => simp at h
          | ok b =>
              rcases hsk : req0.setKey "stream" (Json.bool b) with - | req1
              · simp only [hsk] at h
                simp at h
              · simp only [hsk, Except.ok.injEq] at h
                refine ⟨req0, req1, rfl, h.symm,
                  fun k hk => ⟨get_setKey_other hsk hk, contains_setKey_other hsk hk⟩,
                  fun k hk => ?_⟩
                by_cases hks : k = "stream"
                · subst hks
                  rw [get_setKey_self hsk]
                  simp
                · rw [get_setKey_other hsk hks]
                  exact hk

/-- C4: on a context whose schema supports system messages, with a
system message set, no `system`/`messages` parameter shadowing, and a
successful build: when `system` is not a valid message role, the payload
carries the system text in a top-level `system` field and the `messages`
array — the stored messages, null-stripped — contains no system-role
entry (given none was stored); when `system` is a valid role and the
request template declares no `system` field, the constructed system
message is element 0 of `messages` and the payload has no top-level
`system` field. -/
theorem C4_system_placement (ctx : Context) (s : String)
    (hsys : ctx.m_system_message = some s)
    (hsup : supports_system_messages ctx = true)
    (hnp1 : Json.lookupField ctx.m_parameters "system" = none)
    (hnp2 : Json.lookupField ctx.m_parameters "messages" = none) :
    ("system" ∉ ctx.m_valid_roles →
      (∀ m, m ∈ ctx.m_messages → m.get "role" ≠ Json.str "system") →
      (∀ m, m ∈ ctx.m_messages → m.topNodup) →
      ∀ strm req, (build_request ctx strm).1 = .ok req →
        req.get "system" = Json.str s ∧
        req.get "messages" = Json.arr (ctx.m_messages.map removeNulls) ∧
        (∀ m2, m2 ∈ ctx.m_messages.map removeNulls →
          m2.get "role" ≠ Json.str "system")) ∧
    ("system" ∈ ctx.m_valid_roles →
      ctx.m_request_template.contains "system" = false →
      ∀ strm req, (build_request ctx strm).1 = .ok req →
        ∃ sysmsg, create_message ctx "system" s = .ok sysmsg ∧
          req.get "messages" =
            Json.arr (removeNulls sysmsg :: ctx.m_messages.map removeNulls) ∧
          req.contains "system" = false) := by
  constructor
  · intro hrole hmsgs hwf strm req hok
    obtain ⟨req0, reqF, hpre, hreq, hkeys, -⟩ := build_request_ok_shape hok
    have hgs := (hkeys "system" (by decide)).1
    have hgm := (hkeys "messages" (by decide)).1
    obtain ⟨r1, pr, r3, r4, r5, hr1, hpr, hr3, hr4, hr5, hr6⟩ := buildPreStream_parts hpre
    obtain ⟨-, hsysset, -, -, hmsgseq⟩ := systemStep_parts hpr
    have hsks := hsysset s hsys hsup hrole
    have hmeq := hmsgseq s hsys hsup hrole
    have hg1 : pr.1.get "system" = Json.str s := get_setKey_self hsks
    have hg3sys : r3.get "system" = Json.str s :=
      (get_setKey_other hr3 (by decide)).trans hg1
    have hg3msg : r3.get "messages" = Json.arr ctx.m_messages := by
      rw [get_setKey_self hr3, hmeq]
    obtain ⟨hg4sys, -⟩ := applyParamsE_not_mem ctx.m_parameters r3 r4 hnp1 hr4
    obtain ⟨hg4msg, -⟩ := applyParamsE_not_mem ctx.m_parameters r3 r4 hnp2 hr4
    have hg5sys : r5.get "system" = r4.get "system" :=
      (setIfAbsent_preserves hr5 (by decide)).1
    have hg5msg : r5.get "messages" = r4.get "messages" :=
      (setIfAbsent_preserves hr5 (by decide)).1
    have hg6sys : req0.get "system" = r5.get "system" :=
      (setIfAbsent_preserves hr6 (by decide)).1
    have hg6msg : req0.get "messages" = r5.get "messages" :=
      (setIfAbsent_preserves hr6 (by decide)).1
    have hFsys : reqF.get "system" = Json.str s := by
      rw [hgs, hg6sys, hg5sys, hg4sys, hg3sys]
    have hFmsg : reqF.get "messages" = Json.arr ctx.m_messages := by
      rw [hgm, hg6msg, hg5msg, hg4msg, hg3msg]
    subst hreq
    refine ⟨?_, ?_, ?_⟩
    · rw [get_removeNulls_of_ne_null (by rw [hFsys]; simp), hFsys]
      rfl
    · rw [get_removeNulls_of_ne_null (by rw [hFmsg]; simp), hFmsg]
      simp [removeNulls, removeNullsList_eq_map]
    · intro m2 hm2
      obtain ⟨m, hm, rfl⟩ := List.mem_map.mp hm2
      exact get_removeNulls_ne_str (hwf m hm) (hmsgs m hm)
  · intro hrole htpl strm req hok
    obtain ⟨req0, reqF, hpre, hreq, hkeys, -⟩ := build_request_ok_shape hok
    have hcs := (hkeys "system" (by decide)).2
    have hgm := (hkeys "messages" (by decide)).1
    obtain ⟨r1, pr, r3, r4, r5, hr1, hpr, hr3, hr4, hr5, hr6⟩ := buildPreStream_parts hpre
    obtain ⟨hid, -, -, hcons, -⟩ := systemStep_parts hpr
    obtain ⟨sysmsg, hcm, hmeq⟩ := hcons s hsys hsup hrole
    have hpr1 : pr.1 = r1 := hid (Or.inr (Or.inr hrole))
    have hg3msg : r3.get "messages" = Json.arr (sysmsg :: ctx.m_messages) := by
      rw [get_setKey_self hr3, hmeq]
    have hc1 : r1.contains "system" = ctx.m_request_template.contains "system" :=
      (modelStep_preserves hr1 (by decide)).2
    have hc3 : r3.contains "system" = false := by
      rw [contains_setKey_other hr3 (by decide), hpr1, hc1, htpl]
    obtain ⟨hg4msg, -⟩ := applyParamsE_not_mem ctx.m_parameters r3 r4 hnp2 hr4
    obtain ⟨-, hc4⟩ := applyParamsE_not_mem ctx.m_parameters r3 r4 hnp1 hr4
    have hg5msg : r5.get "messages" = r4.get "messages" :=
      (setIfAbsent_preserves hr5 (by decide)).1
    have hc5 : r5.contains "system" = r4.contains "system" :=
      (setIfAbsent_preserves hr5 (by decide)).2
    have hg6msg : req0.get "messages" = r5.get "messages" :=
      (setIfAbsent_preserves hr6 (by decide)).1
    have hc6 : req0.contains "system" = r5.contains "system" :=
      (setIfAbsent_preserves hr6 (by decide)).2
    have hFmsg : reqF.get "messages" = Json.arr (sysmsg :: ctx.m_messages) := by
      rw [hgm, hg6msg, hg5msg, hg4msg, hg3msg]
    have hFsys : reqF.contains "system" = false := by
      rw [hcs, hc6, hc5, hc4, hc3]
    subst hreq
    refine ⟨sysmsg, hcm, ?_, ?_⟩
    · rw [get_removeNulls_of_ne_null (by rw [hFmsg]; simp), hFmsg]
      simp [removeNulls, removeNullsList_eq_map]
    · exact contains_removeNulls_of_not_contains hFsys

/-- Witness for C4: the Claude-style schema puts the system text in a
top-level field, the OpenAI-style schema prepends it to `messages`. -/
theorem C4_system_placement_witness :
    ((build_request sysClaudeCtx false).1 = .ok reqClaudeSys ∧
      reqClaudeSys.get "system" = Json.str "be nice" ∧
      reqClaudeSys.get "messages" =
        Json.arr (sysClaudeCtx.m_messages.map removeNulls) ∧
      (∀ m2, m2 ∈ sysClaudeCtx.m_messages.map removeNulls →
        m2.get "role" ≠ Json.str "system")) ∧
    ((build_request sysOpenaiCtx false).1 = .ok reqOpenaiSys ∧
      ∃ sysmsg, create_message sysOpenaiCtx "system" "be nice" = .ok sysmsg ∧
        reqOpenaiSys.get "messages" =
          Json.arr (removeNulls sysmsg :: sysOpenaiCtx.m_messages.map removeNulls) ∧
        reqOpenaiSys.contains "system" = false) := by
  have hA := (C4_system_placement sysClaudeCtx "be nice" (by decide) (by decide)
    (by decide) (by decide)).1 (by decide)
    (by
      intro m hm
      rw [show sysClaudeCtx.m_messages =
        [Json.obj [("role", Json.str "user"),
          ("content", Json.arr [Json.obj [("type", Json.str "text"),
            ("text", Json.str "hello")]])]] from by decide] at hm
      simp at hm
      subst hm
      decide)
    (by
      intro m hm
      rw [show sysClaudeCtx.m_messages =
        [Json.obj [("role", Json.str "user"),
          ("content", Json.arr [Json.obj [("type", Json.str "text"),
            ("text", Json.str "hello")]])]] from by decide] at hm
      simp at hm
      subst hm
      simp only [Json.topNodup]
      decide)
    false reqClaudeSys (by decide)
  have hB := (C4_system_placement sysOpenaiCtx "be nice" (by decide) (by decide)
    (by decide) (by decide)).2 (by decide) (by decide)
    false reqOpenaiSys (by decide)
  exact ⟨⟨by decide, hA.1, hA.2.1, hA.2.2⟩, by decide, hB⟩

/-- C8: with the cached text path `choices/0/message/content`, the
example response extracts to `"hi"`, the empty-choices response raises a
runtime extraction error, and in general path walking fails on a numeric
segment whenever the node is not an array with enough elements, and on a
key segment whenever the node is not an object holding the key. -/
theorem C8_extract_text (ctx : Context)
    (hpath : ctx.m_text_path = ["choices", "0", "message", "content"]) :
    extract_text_response ctx
      (Json.obj [("choices", Json.arr [Json.obj [("message",
        Json.obj [("content", Json.str "hi")])]])]) = .ok "hi" ∧
    (∃ m, extract_text_response ctx (Json.obj [("choices", Json.arr [])]) =
       .error (.runtimeError m)) ∧
    (∀ j (key : String) rest, key.data.all Char.isDigit = true →
       key.data ≠ [] → (j.isArr = false ∨ j.arrSize ≤ digitsVal key.data) →
       ∃ m, resolve_path j (key :: rest) = .error (.runtimeError m)) ∧
    (∀ j (key : String) rest, key.data.all Char.isDigit = false →
       j.contains key = false →
       ∃ m, resolve_path j (key :: rest) = .error (.runtimeError m)) := by
  refine ⟨?_, ?_, ?_, ?_⟩
  · unfold extract_text_response
    rw [hpath]
    decide
  · unfold extract_text_response
    rw [hpath]
    refine ⟨"Failed to extract text response: Invalid array access: index 0", ?_⟩
    decide
  · intro j key rest hdig hne hbad
    unfold resolve_path
    rw [if_pos hdig, if_neg hne]
    by_cases hbig : 2147483647 < digitsVal key.data
    · exact ⟨"stoi", by simp [hbig]⟩
    · cases j with
      | arr xs =>
          rcases hbad with hbad | hbad
          · simp [Json.isArr] at hbad
          · simp only [Json.arrSize] at hbad
            exact ⟨"Invalid array access: index " ++ key,
              by simp [hbig, Nat.not_lt.mpr hbad]⟩
      | null => exact ⟨"Invalid array access: index " ++ key, by simp [hbig]⟩
      | bool b => exact ⟨"Invalid array access: index " ++ key, by simp [hbig]⟩
      | int n => exact ⟨"Invalid array access: index " ++ key, by simp [hbig]⟩
      | num q => exact ⟨"Invalid array access: index " ++ key, by simp [hbig]⟩
      | str s => exact ⟨"Invalid array access: index " ++ key, by simp [hbig]⟩
      | obj fs => exact ⟨"Invalid array access: index " ++ key, by simp [hbig]⟩
  · intro j key rest hdig hcont
    refine ⟨"Invalid object access: key " ++ key, ?_⟩
    unfold resolve_path
    rw [if_neg (by simp [hdig]), if_neg (by simp [hcont])]

/-- Witness for C8 on the OpenAI-style context. -/
theorem C8_extract_text_witness :
    openaiCtx.m_text_path = ["choices", "0", "message", "content"] ∧
    extract_text_response openaiCtx
      (Json.obj [("choices", Json.arr [Json.obj [("message",
        Json.obj [("content", Json.str "hi")])]])]) = .ok "hi" ∧
    (∃ m, extract_text_response openaiCtx (Json.obj [("choices", Json.arr [])]) =
       .error (.runtimeError m)) ∧
    (∃ m, resolve_path (Json.int 3) ["2"] = .error (.runtimeError m)) ∧
    (∃ m, resolve_path (Json.obj []) ["text"] = .error (.runtimeError m)) := by
  have h := C8_extract_text openaiCtx (by decide)
  exact ⟨by decide, h.1, h.2.1,
    h.2.2.1 (Json.int 3) "2" [] (by decide) (by decide) (Or.inl (by decide)),
    h.2.2.2 (Json.obj []) "text" [] (by decide) (by decide)⟩

theorem typeMatches_integer (v : Json) : typeMatches "integer" v = v.isInt := by
  simp [typeMatches]

theorem typeMatches_float (v : Json) : typeMatches "float" v = v.isNumber := by
  simp [typeMatches]

/-- C7 (amended): for a parameter declared with a single numeric type
(`integer` or `float`), numeric `min`/`max` bounds and no `enum`
constraint, with validation enabled: `set_parameter` accepts every
numeric value of the declared type with `min ≤ v ≤ max` (the boundary
values included) and stores it, and raises a validation error — leaving
the context unchanged — for every numeric value below `min` or above
`max` (whatever its storage type). -/
theorem C7_numeric_range (ctx : Context) (key : String) (v : Json) (t : String) (mn mx : ℚ)
    (hval : ctx.m_config.enable_validation = true)
    (hpar : ctx.m_schema.contains "parameters" = true)
    (hkey : (ctx.m_schema.get "parameters").contains key = true)
    (hty : ((ctx.m_schema.get "parameters").get key).get "type" = Json.str t)
    (ht : t = "integer" ∨ t = "float")
    (hmnc : ((ctx.m_schema.get "parameters").get key).contains "min" = true)
    (hmn : (((ctx.m_schema.get "parameters").get key).get "min").asRat = .ok mn)
    (hmxc : ((ctx.m_schema.get "parameters").get key).contains "max" = true)
    (hmx : (((ctx.m_schema.get "parameters").get key).get "max").asRat = .ok mx)
    (hnoenum : ((ctx.m_schema.get "parameters").get key).contains "enum" = false)
    (hnum : v.isNumber = true) :
    (typeMatches t v = true → mn ≤ v.toRatD → v.toRatD ≤ mx →
      set_parameter ctx key v =
        (.ok (), { ctx with m_parameters := insertParam ctx.m_parameters key v })) ∧
    ((v.toRatD < mn ∨ mx < v.toRatD) →
      ∃ m, set_parameter ctx key v = (.error (.validationError m), ctx)) := by
  have hvn : ¬ (v = Json.null) := by
    intro hv
    rw [hv] at hnum
    simp [Json.isNumber] at hnum
  have htyc : ((ctx.m_schema.get "parameters").get key).contains "type" = true :=
    contains_of_get_ne_null (by rw [hty]; simp)
  have hnotarr : ¬ (((ctx.m_schema.get "parameters").get key).contains "type" = true ∧
      (((ctx.m_schema.get "parameters").get key).get "type").isArr = true) := by
    rintro ⟨-, hisarr⟩
    rw [hty] at hisarr
    simp [Json.isArr] at hisarr
  have hnostr : ¬ (v.isStr = true ∧
      ((ctx.m_schema.get "parameters").get key).contains "max_length" = true) := by
    rintro ⟨hstr, -⟩
    cases v <;> simp_all [Json.isStr, Json.isNumber]
  have heval : validate_parameter ctx key v =
      (if t = "integer" ∧ v.isInt = false then
         .error (.validationError ("Parameter " ++ key ++ " must be an integer"))
       else if v.toRatD < mn then
         .error (.validationError ("Parameter " ++ key ++ " must be at least the minimum"))
       else if mx < v.toRatD then
         .error (.validationError ("Parameter " ++ key ++ " must be at most the maximum"))
       else .ok ()) := by
    unfold validate_parameter
    rw [if_neg hvn, if_neg (not_not_intro ⟨hpar, hkey⟩), if_neg hnotarr]
    rw [if_neg hnostr, if_neg (by simp [hnoenum]), if_pos htyc, hty]
    rw [if_pos ⟨hnum, hmnc⟩, if_pos ⟨hnum, hmxc⟩, hmn, hmx]
    rcases ht with ht | ht <;> subst ht
    · by_cases hint : v.isInt = true <;>
        simp [Json.asString, Bind.bind, Except.bind, pure, Except.pure, hint, hnum]
    · simp [Json.asString, Bind.bind, Except.bind, pure, Except.pure, hnum]
  constructor
  · intro htm hge hle
    have hnlt : ¬ (v.toRatD < mn) := not_lt.mpr hge
    have hngt : ¬ (mx < v.toRatD) := not_lt.mpr hle
    have h1 : ¬ (t = "integer" ∧ v.isInt = false) := by
      rintro ⟨ht1, hif⟩
      subst ht1
      rw [typeMatches_integer, hif] at htm
      cases htm
    have hok : validate_parameter ctx key v = .ok () := by
      rw [heval, if_neg h1, if_neg hnlt, if_neg hngt]
    unfold set_parameter
    rw [if_pos hval, hok]
  · intro hout
    have herr : ∃ m, validate_parameter ctx key v = .error (.validationError m) := by
      by_cases h1 : t = "integer" ∧ v.isInt = false
      · exact ⟨_, by rw [heval, if_pos h1]⟩
      · by_cases hq : v.toRatD < mn
        · exact ⟨_, by rw [heval, if_neg h1, if_pos hq]⟩
        · rcases hout with hout | hout
          · exact absurd hout hq
          · exact ⟨_, by rw [heval, if_neg h1, if_neg hq, if_pos hout]⟩
    obtain ⟨m, hm⟩ := herr
    refine ⟨m, ?_⟩
    unfold set_parameter
    rw [if_pos hval, hm]

/-- Counterexample for C7 as frozen: on the Claude-style schema the
`max_tokens` parameter is declared `integer` with range 1..8192, yet the
in-range floating value 3/2 is rejected (type check precedes range
check); and on a schema declaring an `enum` next to numeric bounds, the
in-range integer 7 of the declared type is rejected by the enum check. -/
theorem C7_numeric_range_counterexample :
    ((1 : ℚ) ≤ (Json.num threeHalves).toRatD ∧ (Json.num threeHalves).toRatD ≤ 8192 ∧
      (set_parameter claudeCtx "max_tokens" (Json.num threeHalves)).1 =
        .error (.validationError "Parameter max_tokens must be an integer")) ∧
    ((0 : ℚ) ≤ (Json.int 7).toRatD ∧ (Json.int 7).toRatD ≤ 100 ∧ (Json.int 7).isInt = true ∧
      (set_parameter enumParamCtx "top_k" (Json.int 7)).1 =
        .error (.validationError "Parameter top_k has invalid value")) := by
  constructor
  · exact ⟨by decide, by decide, by decide⟩
  · exact ⟨by decide, by decide, by decide, by decide⟩

/-- Witness for C7 (amended) on the Claude-style `temperature`
parameter (type float, range 0..1): the boundary value 0, the interior
value 1/2 and the boundary value 1 are accepted, the out-of-range value
2 is rejected with the context unchanged. -/
theorem C7_numeric_range_witness :
    (set_parameter claudeCtx "temperature" (Json.int 0) =
      (.ok (), { claudeCtx with
        m_parameters := insertParam claudeCtx.m_parameters "temperature" (Json.int 0) })) ∧
    (set_parameter claudeCtx "temperature" (Json.num half) =
      (.ok (), { claudeCtx with
        m_parameters := insertParam claudeCtx.m_parameters "temperature" (Json.num half) })) ∧
    (set_parameter claudeCtx "temperature" (Json.int 1) =
      (.ok (), { claudeCtx with
        m_parameters := insertParam claudeCtx.m_parameters "temperature" (Json.int 1) })) ∧
    (∃ m, set_parameter claudeCtx "temperature" (Json.int 2) =
      (.error (.validationError m), claudeCtx)) := by
  have h0 := C7_numeric_range claudeCtx "temperature" (Json.int 0) "float" 0 1
    (by decide) (by decide) (by decide) (by decide) (Or.inr rfl) (by decide) (by decide)
    (by decide) (by decide) (by decide) (by decide)
  have hh := C7_numeric_range claudeCtx "temperature" (Json.num half) "float" 0 1
    (by decide) (by decide) (by decide) (by decide) (Or.inr rfl) (by decide) (by decide)
    (by decide) (by decide) (by decide) (by decide)
  have h1 := C7_numeric_range claudeCtx "temperature" (Json.int 1) "float" 0 1
    (by decide) (by decide) (by decide) (by decide) (Or.inr rfl) (by decide) (by decide)
    (by decide) (by decide) (by decide) (by decide)
  have h2 := C7_numeric_range claudeCtx "temperature" (Json.int 2) "float" 0 1
    (by decide) (by decide) (by decide) (by decide) (Or.inr rfl) (by decide) (by decide)
    (by decide) (by decide) (by decide) (by decide)
  exact ⟨h0.1 (by decide) (by decide) (by decide),
         hh.1 (by decide) (by decide) (by decide),
         h1.1 (by decide) (by decide) (by decide),
         h2.2 (Or.inr (by decide))⟩

theorem asString_error {j : Json} {e : HyniError} (h : j.asString = .error e) :
    ∃ m, e = .jsonError m := by
  cases j <;> simp [Json.asString] at h <;> exact ⟨_, h.symm⟩

theorem requiredHeadersLoop_error_json (schema : Json) (apiKey : String) :
    ∀ (items : List (String × Json)) (acc acc2 : List (String × String)) (e : HyniError),
    requiredHeadersLoop schema apiKey items acc = (.error e, acc2) →
    ∃ m, e = .jsonError m := by
  intro items
  induction items with
  | nil =>
      intro acc acc2 e h
      simp [requiredHeadersLoop] at h
  | cons p rest ih =>
      intro acc acc2 e h
      obtain ⟨key, value⟩ := p
      unfold requiredHeadersLoop at h
      rcases hv : value.asString with e2 | hv2
      · simp only [hv, Prod.mk.injEq, Except.error.injEq] at h
        obtain ⟨h1, -⟩ := h
        obtain ⟨m, hm⟩ := asString_error hv
        exact ⟨m, by rw [← h1]; exact hm⟩
      · simp only [hv] at h
        by_cases hauth : (schema.contains "authentication" = true ∧
            (schema.get "authentication").contains "key_placeholder" = true)
        · rw [if_pos hauth] at h
          rcases hp : ((schema.get "authentication").get "key_placeholder").asString with e3 | pl
          · simp only [hp, Prod.mk.injEq, Except.error.injEq] at h
            obtain ⟨h1, -⟩ := h
            obtain ⟨m, hm⟩ := asString_error hp
            exact ⟨m, by rw [← h1]; exact hm⟩
          · simp only [hp] at h
            exact ih _ _ _ h
        · rw [if_neg hauth] at h
          exact ih _ _ _ h

theorem buildHeadersSteps_error_json {schema : Json} {apiKey : String}
    {e : HyniError} {hs : List (String × String)}
    (h : buildHeadersSteps schema apiKey = (.error e, hs)) : ∃ m, e = .jsonError m := by
  unfold buildHeadersSteps at h
  by_cases hc : (schema.contains "headers" = true ∧
      (schema.get "headers").contains "required" = true)
  · rw [if_pos hc] at h
    rcases hr : requiredHeadersLoop schema apiKey
        ((schema.get "headers").get "required").itemsList [] with ⟨r, acc⟩
    rw [hr] at h
    cases r with
    | error e2 =>
        simp only [Prod.mk.injEq, Except.error.injEq] at h
        obtain ⟨m, hm⟩ := requiredHeadersLoop_error_json schema apiKey _ _ _ _ hr
        exact ⟨m, by rw [← h.1]; exact hm⟩
    | ok u =>
        simp only [Prod.mk.injEq] at h
        split at h <;> simp only [Prod.mk.injEq] at h <;> exact absurd h.1 (by simp)
  · rw [if_neg hc] at h
    simp only [Prod.mk.injEq] at h
    split at h <;> simp only [Prod.mk.injEq] at h <;> exact absurd h.1 (by simp)

theorem set_model_error_frame {ctx : Context} {model : String} {e : HyniError}
    {ctx2 : Context} (h : set_model ctx model = (.error e, ctx2)) : ctx2 = ctx := by
  unfold set_model at h
  split at h
  · split at h
    · simp only [Prod.mk.injEq] at h
      exact h.2.symm
    · split at h
      · simp only [Prod.mk.injEq] at h
        exact h.2.symm
      · simp only [Prod.mk.injEq] at h
        exact absurd h.1 (by simp)
  · simp only [Prod.mk.injEq] at h
    exact absurd h.1 (by simp)

theorem set_system_message_error_frame {ctx : Context} {t : String} {e : HyniError}
    {ctx2 : Context} (h : set_system_message ctx t = (.error e, ctx2)) : ctx2 = ctx := by
  unfold set_system_message at h
  split at h
  · simp only [Prod.mk.injEq] at h
    exact h.2.symm
  · simp only [Prod.mk.injEq] at h
    exact absurd h.1 (by simp)

theorem set_parameter_error_frame {ctx : Context} {k : String} {v : Json} {e : HyniError}
    {ctx2 : Context} (h : set_parameter ctx k v = (.error e, ctx2)) : ctx2 = ctx := by
  unfold set_parameter at h
  split at h
  · split at h
    · simp only [Prod.mk.injEq] at h
      exact h.2.symm
    · simp only [Prod.mk.injEq] at h
      exact absurd h.1 (by simp)
  · simp only [Prod.mk.injEq] at h
    exact absurd h.1 (by simp)

theorem set_api_key_validation_error_frame {ctx : Context} {k : String} {m : String}
    {ctx2 : Context} (h : set_api_key ctx k = (.error (.validationError m), ctx2)) :
    ctx2 = ctx := by
  unfold set_api_key at h
  split at h
  · simp only [Prod.mk.injEq] at h
    exact h.2.symm
  · rcases hb : buildHeadersSteps ctx.m_schema k with ⟨r, hs⟩
    rw [hb] at h
    cases r with
    | ok u =>
        simp only [Prod.mk.injEq] at h
        exact absurd h.1 (by simp)
    | error e2 =>
        simp only [Prod.mk.injEq] at h
        obtain ⟨m2, hm2⟩ := buildHeadersSteps_error_json hb
        rw [hm2] at h
        exact absurd h.1.symm (by simp)

theorem add_message_error_frame {ctx : Context} {r c : String} {e : HyniError}
    {ctx2 : Context} (h : add_message ctx r c = (.error e, ctx2)) : ctx2 = ctx := by
  unfold add_message at h
  split at h
  · simp only [Prod.mk.injEq] at h
    exact h.2.symm
  · split at h
    · split at h
      · simp only [Prod.mk.injEq] at h
        exact h.2.symm
      · simp only [Prod.mk.injEq] at h
        exact absurd h.1 (by simp)
    · simp only [Prod.mk.injEq] at h
      exact absurd h.1 (by simp)

theorem set_parameters_decomp :
    ∀ (ps : List (String × Json)) (ctx ctx2 : Context) (e : HyniError),
    set_parameters ctx ps = (.error e, ctx2) →
    ∃ done p rest, ps = done ++ p :: rest ∧
      set_parameters ctx done = (.ok (), ctx2) ∧
      set_parameter ctx2 p.1 p.2 = (.error e, ctx2) := by
  intro ps
  induction ps with
  | nil =>
      intro ctx ctx2 e h
      simp [set_parameters] at h
  | cons p rest ih =>
      intro ctx ctx2 e h
      obtain ⟨k, v⟩ := p
      unfold set_parameters at h
      rcases hsp : set_parameter ctx k v with ⟨r, ctx1⟩
      rw [hsp] at h
      cases r with
      | error e2 =>
          simp only [Prod.mk.injEq] at h
          obtain ⟨h1, h2⟩ := h
          have hctx1 : ctx1 = ctx := set_parameter_error_frame hsp
          refine ⟨[], (k, v), rest, rfl, ?_, ?_⟩
          · simp [set_parameters, ← h2, hctx1]
          · have hone : set_parameter ctx k v = (.error e, ctx) := by
              rw [hsp, h1, hctx1]
            rw [← h2, hctx1]
            exact hone
      | ok u =>
          obtain ⟨done, p2, rest2, hps, hdone, herr⟩ := ih ctx1 ctx2 e h
          refine ⟨(k, v) :: done, p2, rest2, by simp [hps], ?_, herr⟩
          unfold set_parameters
          rw [hsp]
          exact hdone

/-- C2 (amended): a mutating call that raises a validation error leaves
the context unchanged for `set_model`, `set_system_message`,
`set_parameter`, `set_api_key` and `add_message` (for the first three
and the last, on any error at all); `set_parameters`, however, applies
its entries one at a time with no rollback, so a failing call leaves
exactly the successfully processed prefix stored: the resulting state is
the state after some successful prefix, with the next entry the failing
one. -/
theorem C2_mutation_on_error (ctx : Context) :
    (∀ model e ctx2, set_model ctx model = (.error e, ctx2) → ctx2 = ctx) ∧
    (∀ t e ctx2, set_system_message ctx t = (.error e, ctx2) → ctx2 = ctx) ∧
    (∀ k v e ctx2, set_parameter ctx k v = (.error e, ctx2) → ctx2 = ctx) ∧
    (∀ k m ctx2, set_api_key ctx k = (.error (.validationError m), ctx2) → ctx2 = ctx) ∧
    (∀ r c e ctx2, add_message ctx r c = (.error e, ctx2) → ctx2 = ctx) ∧
    (∀ ps e ctx2, set_parameters ctx ps = (.error e, ctx2) →
       ∃ done p rest, ps = done ++ p :: rest ∧
         set_parameters ctx done = (.ok (), ctx2) ∧
         set_parameter ctx2 p.1 p.2 = (.error e, ctx2)) := by
  exact ⟨fun _ _ _ h => set_model_error_frame h,
         fun _ _ _ h => set_system_message_error_frame h,
         fun _ _ _ _ h => set_parameter_error_frame h,
         fun _ _ _ h => set_api_key_validation_error_frame h,
         fun _ _ _ _ h => add_message_error_frame h,
         fun ps e ctx2 h => set_parameters_decomp ps ctx ctx2 e h⟩

/-- Counterexample for C2 as frozen: a `set_parameters` call with one
valid entry (`top_p` = 1/2) followed by one invalid entry
(`temperature` = 5, above the maximum) raises a validation error yet
leaves the valid entry stored, although the map was empty before. -/
theorem C2_mutation_counterexample :
    claudeCtx.m_parameters = [] ∧
    (set_parameters claudeCtx
      [("top_p", Json.num half), ("temperature", Json.int 5)]).1 =
      .error (.validationError "Parameter temperature must be at most the maximum") ∧
    (set_parameters claudeCtx
      [("top_p", Json.num half), ("temperature", Json.int 5)]).2.m_parameters =
      [("top_p", Json.num half)] := by
  exact ⟨by decide, by decide, by decide⟩

/-- Witness for C2 (amended), exercising every conjunct at a concrete
failing call. -/
theorem C2_mutation_on_error_witness :
    ((set_model claudeCtx "gpt-4").2 = claudeCtx ∧
      (set_model claudeCtx "gpt-4").1 =
        .error (.validationError "Model gpt-4 is not supported by this provider")) ∧
    ((set_system_message noFeaturesCtx "be nice").2 = noFeaturesCtx) ∧
    ((set_parameter claudeCtx "temperature" (Json.int 5)).2 = claudeCtx) ∧
    ((set_api_key claudeCtx "").2 = claudeCtx) ∧
    ((add_message claudeCtx "wizard" "hi").2 = claudeCtx) ∧
    (∃ done p rest,
      [("top_p", Json.num half), ("temperature", Json.int 5)] = done ++ p :: rest ∧
      set_parameters claudeCtx done =
        (.ok (), (set_parameters claudeCtx
          [("top_p", Json.num half), ("temperature", Json.int 5)]).2) ∧
      set_parameter (set_parameters claudeCtx
          [("top_p", Json.num half), ("temperature", Json.int 5)]).2 p.1 p.2 =
        (.error (.validationError "Parameter temperature must be at most the maximum"),
         (set_parameters claudeCtx
           [("top_p", Json.num half), ("temperature", Json.int 5)]).2)) := by
  have h := C2_mutation_on_error claudeCtx
  have hsys := C2_mutation_on_error noFeaturesCtx
  refine ⟨⟨?_, by decide⟩, ?_, ?_, ?_, ?_, ?_⟩
  · exact h.1 "gpt-4"
      (.validationError "Model gpt-4 is not supported by this provider")
      (set_model claudeCtx "gpt-4").2 (by decide)
  · exact hsys.2.1 "be nice"
      (.validationError "Provider bare does not support system messages")
      (set_system_message noFeaturesCtx "be nice").2 (by decide)
  · exact h.2.2.1 "temperature" (Json.int 5)
      (.validationError "Parameter temperature must be at most the maximum")
      (set_parameter claudeCtx "temperature" (Json.int 5)).2 (by decide)
  · exact h.2.2.2.1 "" "API key cannot be empty" (set_api_key claudeCtx "").2 (by decide)
  · exact h.2.2.2.2.1 "wizard" "hi" (.validationError "Invalid message role: wizard")
      (add_message claudeCtx "wizard" "hi").2 (by decide)
  · exact h.2.2.2.2.2 [("top_p", Json.num half), ("temperature", Json.int 5)]
      (.validationError "Parameter temperature must be at most the maximum")
      (set_parameters claudeCtx
        [("top_p", Json.num half), ("temperature", Json.int 5)]).2 (by decide)

theorem supports_streaming_false_of_absent_or_false {ctx : Context}
    (h : (ctx.m_schema.get "features").contains "streaming" = false ∨
         (ctx.m_schema.get "features").get "streaming" = Json.bool false) :
    supports_streaming ctx = false := by
  unfold supports_streaming
  by_cases hc : ctx.m_schema.contains "features" = true
  · rw [if_pos hc]
    cases hf : ctx.m_schema.get "features" with
    | obj fs =>
        rcases h with h | h
        · rw [hf] at h
          simp only [Json.contains] at h
          rcases hl : Json.lookupField fs "streaming" with _ | v
          · simp [hl]
          · rw [hl] at h
            simp at h
        · rw [hf] at h
          simp only [Json.get] at h
          rcases hl : Json.lookupField fs "streaming" with _ | v
          · simp [hl]
          · rw [hl] at h
            simp only [Option.getD_some] at h
            subst h
            simp [hl]
    | null => rfl
    | bool b => rfl
    | int n => rfl
    | num q => rfl
    | str s => rfl
    | arr xs => rfl
  · rw [if_neg hc]

/-- C9: when the schema's `features.streaming` flag is absent or false,
both streaming send overloads raise the streaming-not-supported error,
leave the api state untouched, and produce no transport effect (the
streaming POST is never invoked). -/
theorem C9_streaming_guard (api : ChatApi)
    (h : (api.m_context.m_schema.get "features").contains "streaming" = false ∨
         (api.m_context.m_schema.get "features").get "streaming" = Json.bool false) :
    (∀ message, send_message_stream_with api message =
       (.error .streamingNotSupported, api, [])) ∧
    send_message_stream_ctx api = (.error .streamingNotSupported, api, []) := by
  have hs := supports_streaming_false_of_absent_or_false h
  constructor
  · intro message
    unfold send_message_stream_with
    simp [hs]
  · unfold send_message_stream_ctx
    simp [hs]

/-- Witness for C9: a schema with `features.streaming = false` and a
schema with no `features` section at all. -/
theorem C9_streaming_guard_witness :
    send_message_stream_with ⟨noStreamCtx⟩ "hello" =
      (.error .streamingNotSupported, ⟨noStreamCtx⟩, []) ∧
    send_message_stream_ctx ⟨noFeaturesCtx⟩ =
      (.error .streamingNotSupported, ⟨noFeaturesCtx⟩, []) := by
  exact ⟨(C9_streaming_guard ⟨noStreamCtx⟩ (Or.inr (by decide))).1 "hello",
         (C9_streaming_guard ⟨noFeaturesCtx⟩ (Or.inl (by decide))).2⟩

theorem C10_reset_frame_witness :
    claudeBusyCtx.m_schema.contains "models" = true ∧
    (claudeBusyCtx.m_schema.get "models").get "default" = Json.str "claude-sonnet" ∧
    has_api_key claudeBusyCtx = true ∧
    claudeBusyCtx.m_messages ≠ [] ∧
    (reset claudeBusyCtx).2.m_messages = [] ∧
    (reset claudeBusyCtx).2.m_parameters = [] ∧
    (reset claudeBusyCtx).2.m_model_name = "claude-sonnet" ∧
    has_api_key (reset claudeBusyCtx).2 = true := by
  have h := C10_reset_frame claudeBusyCtx
  refine ⟨by decide, by decide, by decide, by decide, h.1, h.2.2.1, ?_, ?_⟩
  · exact h.2.2.2.2.2.2.2.2.2.1 "claude-sonnet" (by decide) (by decide)
  · rw [h.2.2.2.2.2.2.2.2.1]; decide

theorem setIfAbsent_of_contains {req : Json} {key : String} {vo : Option Json}
    (h : req.contains key = true) : setIfAbsent req key vo = .ok req := by
  cases vo with
  | none => rfl
  | some v =>
      show (if ¬ req.contains key = true then ofSet (req.setKey key v)
        else pure req) = Except.ok req
      rw [if_neg (by simp [h])]
      rfl

theorem setIfAbsent_get_of_contains {req req1 : Json} {key k : String} {vo : Option Json}
    (h : setIfAbsent req key vo = .ok req1) (hc : req.contains k = true) :
    req1.get k = req.get k ∧ req1.contains k = true := by
  by_cases hk : k = key
  · subst hk
    rw [setIfAbsent_of_contains hc] at h
    obtain rfl : req = req1 := by injection h
    exact ⟨rfl, hc⟩
  · exact ⟨(setIfAbsent_preserves h hk).1, (setIfAbsent_preserves h hk).2.trans hc⟩

theorem create_message_default_role {ctx : Context} {role content : String} {m : Json}
    (hns : (ctx.m_schema.get "message_format").contains (role ++ "_structure") = false)
    (h : create_message ctx role content = .ok m) :
    m.get "role" = Json.str role := by
  unfold create_message at h
  rw [if_neg (by simp [hns])] at h
  rw [exceptBind_ok] at h
  obtain ⟨m1, h1, h2⟩ := h
  have hsk := ofSet_ok h1
  have hrole : m1.get "role" = Json.str role := get_setKey_self hsk
  split at h2
  · rw [exceptBind_ok] at h2
    obtain ⟨tc, -, h3⟩ := h2
    have hsk2 := ofSet_ok h3
    rw [get_setKey_other hsk2 (by decide), hrole]
  · split at h2
    · have hsk2 := ofSet_ok h2
      rw [get_setKey_other hsk2 (by decide), hrole]
    · obtain rfl : m1 = m := by injection h2
      exact hrole

theorem add_message_ok {ctx : Context} {role content : String}
    (h : (add_message ctx role content).1 = .ok ()) :
    ∃ m, create_message ctx role content = .ok m ∧
      (add_message ctx role content).2 =
        { ctx with m_messages := ctx.m_messages ++ [m] } := by
  unfold add_message at h ⊢
  rcases hc : create_message ctx role content with e | m
  · simp [hc] at h
  · simp only [hc]
    refine ⟨m, rfl, ?_⟩
    by_cases hval : ctx.m_config.enable_validation = true
    · simp only [hc, hval, if_true] at h
      rw [if_pos hval]
      rcases hvm : validate_message ctx m with e | u
      · simp [hvm] at h
      · simp [hvm]
    · rw [if_neg hval]

theorem build_request_messages {ctx : Context} {strm : Bool} {req : Json}
    (hsys : ctx.m_system_message = none ∨ supports_system_messages ctx = false ∨
      "system" ∉ ctx.m_valid_roles)
    (hnp : Json.lookupField ctx.m_parameters "messages" = none)
    (hok : (build_request ctx strm).1 = .ok req) :
    req.get "messages" = Json.arr (ctx.m_messages.map removeNulls) := by
  obtain ⟨req0, reqF, hpre, hreq, hkeys, -⟩ := build_request_ok_shape hok
  obtain ⟨r1, pr, r3, r4, r5, hr1, hpr, hr3, hr4, hr5, hr6⟩ := buildPreStream_parts hpre
  obtain ⟨-, -, hm12, -, hm3⟩ := systemStep_parts hpr
  have hpr2 : pr.2 = ctx.m_messages := by
    rcases hsys with hx | hx | hx
    · exact hm12 (Or.inl hx)
    · exact hm12 (Or.inr hx)
    · rcases hs : ctx.m_system_message with - | s
      · exact hm12 (Or.inl hs)
      · cases hb : supports_system_messages ctx with
        | false => exact hm12 (Or.inr hb)
        | true => exact hm3 s hs hb hx
  have hg3 : r3.get "messages" = Json.arr ctx.m_messages := by
    rw [get_setKey_self hr3, hpr2]
  obtain ⟨hg4, -⟩ := applyParamsE_not_mem ctx.m_parameters r3 r4 hnp hr4
  have hg5 : r5.get "messages" = r4.get "messages" :=
    (setIfAbsent_preserves hr5 (by decide)).1
  have hg6 : req0.get "messages" = r5.get "messages" :=
    (setIfAbsent_preserves hr6 (by decide)).1
  have hF : reqF.get "messages" = Json.arr ctx.m_messages := by
    rw [(hkeys "messages" (by decide)).1, hg6, hg5, hg4, hg3]
  subst hreq
  rw [get_removeNulls_of_ne_null (by rw [hF]; simp), hF]
  simp [removeNulls, removeNullsList_eq_map]

theorem build_request_param_present {ctx : Context} {strm : Bool} {req : Json}
    {k : String} {v : Json}
    (hnd : (ctx.m_parameters.map Prod.fst).Nodup)
    (hl : Json.lookupField ctx.m_parameters k = some v)
    (hv : v ≠ Json.null)
    (hok : (build_request ctx strm).1 = .ok req) :
    req.contains k = true := by
  obtain ⟨req0, reqF, hpre, hreq, -, hnn⟩ := build_request_ok_shape hok
  obtain ⟨r1, pr, r3, r4, r5, hr1, hpr, hr3, hr4, hr5, hr6⟩ := buildPreStream_parts hpre
  obtain ⟨hg4, hc4⟩ := applyParamsE_lookup ctx.m_parameters r3 r4 hnd hl hr4
  obtain ⟨hg5, hc5⟩ := setIfAbsent_get_of_contains hr5 hc4
  obtain ⟨hg6, hc6⟩ := setIfAbsent_get_of_contains hr6 hc5
  have h0 : req0.get k ≠ Json.null := by
    rw [hg6, hg5, hg4]
    exact hv
  subst hreq
  exact contains_removeNulls_of_get_ne_null (hnn k h0)

/-- C6: round trip, as amended.  (1) On a context with no stored
messages, no system message, and no `user_structure` override in the
schema (the override can rename the role, which falsifies the claim as
stated), a successful `add_user_message` followed by a successful
`build_request` yields a `messages` array holding exactly the one new
message, whose role is `user`.  (2) After `clear_user_messages`,
provided the system message does not re-enter the array (none set,
unsupported, or `system` not a valid role — otherwise the claim as
stated fails), `build_request` yields an empty `messages` array, and
every stored non-null parameter is still present in the payload. -/
theorem C6_round_trip (ctx : Context) (s : String)
    (hnp : Json.lookupField ctx.m_parameters "messages" = none) :
    (ctx.m_system_message = none →
     ctx.m_messages = [] →
     (ctx.m_schema.get "message_format").contains "user_structure" = false →
     (add_user_message ctx s).1 = .ok () →
     ∀ strm req, (build_request (add_user_message ctx s).2 strm).1 = .ok req →
       ∃ m, (add_user_message ctx s).2.m_messages = [m] ∧
         req.get "messages" = Json.arr [removeNulls m] ∧
         (removeNulls m).get "role" = Json.str "user") ∧
    ((ctx.m_system_message = none ∨ supports_system_messages ctx = false ∨
        "system" ∉ ctx.m_valid_roles) →
     ∀ strm req, (build_request (clear_user_messages ctx) strm).1 = .ok req →
       req.get "messages" = Json.arr [] ∧
       ∀ k v, Json.lookupField ctx.m_parameters k = some v → v ≠ Json.null →
         (ctx.m_parameters.map Prod.fst).Nodup → req.contains k = true) := by
  constructor
  · intro hsys hmsgs hus hadd strm req hok
    obtain ⟨m, hcm, hctx2⟩ := add_message_ok hadd
    have hctx2s : (add_user_message ctx s).2 =
        { ctx with m_messages := ctx.m_messages ++ [m] } := hctx2
    have hus2 : (ctx.m_schema.get "message_format").contains
        ("user" ++ "_structure") = false := by
      rw [show ("user" ++ "_structure" : String) = "user_structure" from by decide]
      exact hus
    have hrole : m.get "role" = Json.str "user" :=
      create_message_default_role hus2 hcm
    have h1 : (add_user_message ctx s).2.m_system_message = none := by
      rw [hctx2s]; exact hsys
    have h2 : Json.lookupField (add_user_message ctx s).2.m_parameters
        "messages" = none := by
      rw [hctx2s]; exact hnp
    have h3 : (add_user_message ctx s).2.m_messages = [m] := by
      rw [hctx2s]
      show ctx.m_messages ++ [m] = [m]
      rw [hmsgs]
      rfl
    refine ⟨m, h3, ?_, ?_⟩
    · rw [build_request_messages (Or.inl h1) h2 hok, h3]
      rfl
    · rw [get_removeNulls_of_ne_null (by rw [hrole]; simp), hrole]
      rfl
  · intro hsys strm req hok
    have hsys2 : (clear_user_messages ctx).m_system_message = none ∨
        supports_system_messages (clear_user_messages ctx) = false ∨
        "system" ∉ (clear_user_messages ctx).m_valid_roles := hsys
    have h2 : Json.lookupField (clear_user_messages ctx).m_parameters
        "messages" = none := hnp
    constructor
    · rw [build_request_messages hsys2 h2 hok]
      rfl
    · intro k v hl hv hnd
      refine build_request_param_present ?_ ?_ hv hok
      · exact hnd
      · exact hl

/-- Counterexample for C6 as stated: with a schema whose
`message_format.user_structure` pins the role to `assistant`, a fresh
context accepts `add_user_message` yet the built payload's single
message carries role `assistant`, not `user`; and after
`clear_user_messages` on a context whose schema admits `system` as a
message role and whose system message is set, the built `messages`
array is not empty. -/
theorem C6_round_trip_counterexample :
    ((add_user_message userStructCtx "X").1 = .ok () ∧
     userStructCtx.m_system_message = none ∧
     userStructCtx.m_messages = [] ∧
     (build_request ctxU false).1 = .ok reqUserStruct ∧
     reqUserStruct.get "messages" = Json.arr [Json.obj
       [("role", Json.str "assistant"), ("content", Json.str "X")]] ∧
     (Json.obj [("role", Json.str "assistant"),
       ("content", Json.str "X")]).get "role" ≠ Json.str "user") ∧
    ((build_request (clear_user_messages sysOpenaiCtx) false).1 =
       .ok reqOpenaiCleared ∧
     reqOpenaiCleared.get "messages" ≠ Json.arr []) := by
  exact ⟨⟨by decide, by decide, by decide, by decide, by decide, by decide⟩,
    by decide, by decide⟩

/-- Witness for C6: a fresh Claude-style context round-trips one user
message, and a cleared context keeps its `top_p` parameter while its
`messages` array is empty. -/
theorem C6_round_trip_witness :
    (∃ m, (add_user_message claudeCtx "X").2.m_messages = [m] ∧
      reqUserClaude.get "messages" = Json.arr [removeNulls m] ∧
      (removeNulls m).get "role" = Json.str "user") ∧
    reqParamClaude.get "messages" = Json.arr [] ∧
    reqParamClaude.contains "top_p" = true := by
  constructor
  · exact (C6_round_trip claudeCtx "X" (by decide)).1 (by decide) (by decide)
      (by decide) (by decide) false reqUserClaude (by decide)
  · have h := (C6_round_trip paramClaudeCtx "x" (by decide)).2
      (Or.inl (by decide)) false reqParamClaude (by decide)
    exact ⟨h.1, h.2 "top_p" (Json.num half) (by decide) (by decide) (by decide)⟩

end Hyni
